import Mathlib

/-!
# AppFramework: suspend controller, wake locks and the absolute-time scheduling facade

A shallow embedding of `src/app_framework.c` and `src/wake_lock.h`.

* The file-scope statics of `app_framework.c` become the fields of `State`.
* `uint32_t` / `uint8_t` values are natural numbers; every C operation that can
  wrap is written with an explicit reduction modulo `2^32` or `2^8`.
* The Action Scheduler, the critical-section primitive and the four hooks are
  collaborators whose code is not part of `src/`.  Every call the framework
  makes to them is recorded, in program order, as an `Event`; every value they
  return is an input of the embedded function.
* Calls of `DEBUG_PRINTF` only write diagnostics; they read the statics but change
  nothing, and are left out of the trace.
* Action callbacks fired by `ActionScheduler_Proceed` may call back into the
  framework (`AppFramework_WakeLockRecursive`, `AppFramework_SetSuspendEnable`,
  `AppFramework_Schedule`, `AppFramework_ScheduleReload`, `AppFramework_Unschedule`,
  `AppFramework_UnscheduleAll`).  These calls are an input of `AppFramework_Loop`;
  they run at the advance, before the loop writes `lastTick` and before it first
  reads the wake-lock count and the suspend-enabled flag, and the collaborator calls
  they make are recorded in the trace between the `Proceed` event and the events
  that follow the advance.  A callback that re-enters `AppFramework_Init` or
  `AppFramework_Loop` is outside the embedding.
* The four hooks are leaf calls: each is one event, and a hook that calls back into
  the framework is outside the embedding.
-/

namespace AppFramework

/-! ## Machine arithmetic -/

/-- Two to the thirty-second: the modulus of `uint32_t` arithmetic. -/
def U32 : Nat := 4294967296

/-- The modulus of `uint8_t` arithmetic. -/
def U8 : Nat := 256

/-- Wrapping `uint32_t` addition. -/
def add32 (a b : Nat) : Nat := (a % U32 + b % U32) % U32

/-- Wrapping `uint32_t` subtraction. -/
def sub32 (a b : Nat) : Nat := (a % U32 + (U32 - b % U32)) % U32

/-- Conversion to `uint8_t` (truncation to the low eight bits). -/
def toU8 (a : Nat) : Nat := a % U8

/-! ## Constants and state -/

/-- Line 7 of `app_framework.c`: `#define MIN_WAKEUP_SAFEZONE_MS 0U`. -/
def MIN_WAKEUP_SAFEZONE_MS : Nat := 0

/-- Line 8 of `app_framework.c`: `#define MIN_SUSPEND_TIME_DELAY 1U`. -/
def MIN_SUSPEND_TIME_DELAY : Nat := 1

/-- The statics of `app_framework.c` (lines 11 to 14), together with the one piece
of Action Scheduler state the framework reads back, the consumed-time marker.

Modelled from the spec: `proceedingTime` is the Action Scheduler's consumed-time
marker (`action_scheduler.c` is not under `src/`): "the amount of timeline already
spent inside an in-progress advance operation, owned by the Action Scheduler",
returned by `ActionScheduler_GetProceedingTime` and reset to zero by
`ActionScheduler_ClearProceedingTime`. -/
structure State where
  /-- Value of `static uint32_t lastTick`. -/
  lastTick : Nat
  /-- Value of `static bool suspendEnabled`. -/
  suspendEnabled : Bool
  /-- Value of `static uint8_t powerLockRecursive`. -/
  powerLockRecursive : Nat
  /-- Value of `static bool suspendedLastRound`. -/
  suspendedLastRound : Bool
  /-- Consumed-time marker of the Action Scheduler. -/
  proceedingTime : Nat
  deriving DecidableEq, Repr

/-- The statics as the C initialisers leave them at program start. -/
def State.initial : State :=
  { lastTick := 0, suspendEnabled := true, powerLockRecursive := 0,
    suspendedLastRound := false, proceedingTime := 0 }

/-- One call from the framework to a collaborator, with the value it returned
where it returns one.  Callbacks and their arguments are addresses. -/
inductive Event where
  | GetTimestampHook (ret : Nat)
  | Clear
  | Proceed (elapsed : Nat)
  | ClearProceedingTime
  | GetProceedingTime (ret : Nat)
  | GetNextEventDelay (ret : Nat)
  | ScheduleReload (initialDelay reloadPeriod cb arg : Nat)
  | Unschedule (actionId : Nat)
  | UnscheduleAll (cb : Nat)
  | Enter_Critical (ret : Nat)
  | Exit_Critical (lock : Nat)
  | PreSuspendHook
  | SuspendHook (suspendTimeMs : Nat)
  | PostSuspendHook
  deriving DecidableEq, Repr

/-- A call of the framework's API made by an action callback while
`ActionScheduler_Proceed` runs, with what the collaborators answer during that call:
`lock` is the token the nested `Enter_Critical` returns, `now` the timestamp hook's
reading, `consumed` the consumed-time marker the scheduler has reached when the
callback runs, `handle` the handle `ActionScheduler_ScheduleReload` returns and
`removed` the boolean the scheduler's unschedule function returns. -/
inductive ApiCall where
  | WakeLockRecursive (hold : Bool) (lock : Nat)
  | SetSuspendEnable (en : Bool)
  | Schedule (now consumed handle delayedTimeInMs cb arg : Nat)
  | ScheduleReload (now consumed handle delayedTimeInMs reloadTimeInMs cb arg : Nat)
  | Unschedule (removed : Bool) (actionId : Nat)
  | UnscheduleAll (removed : Bool) (cb : Nat)
  deriving DecidableEq, Repr

/-! ## Action Scheduler operations on the consumed-time marker -/

/-- Modelled from the spec: `ActionScheduler_GetProceedingTime` (declared in the
absent `action_scheduler.h`), "time already advanced through within an in-progress
advance call". -/
def ActionScheduler_GetProceedingTime (s : State) : Nat := s.proceedingTime

/-- Modelled from the spec: `ActionScheduler_ClearProceedingTime` (declared in the
absent `action_scheduler.h`), "resets the consumed-time marker to zero". -/
def ActionScheduler_ClearProceedingTime (s : State) : State :=
  { s with proceedingTime := 0 }

/-! ## `app_framework.c` -/

/-- Lines 18 to 21; `nextEventDelay` is what `ActionScheduler_GetNextEventDelay`
returns at this call. -/
def ShouldAbortSuspend (nextEventDelay suspendTime : Nat) : Bool :=
  decide (nextEventDelay < suspendTime)

/-- Lines 23 to 27: the weak default of the pre-suspend hook, an empty body. -/
def AppFramework_PreSuspendHook_default (s : State) : State := s

/-- Lines 29 to 32: the weak default of the suspend hook, an empty body. -/
def AppFramework_SuspendHook_default (s : State) (_suspendTimeMs : Nat) : State := s

/-- Lines 34 to 38: the weak default of the post-suspend hook, an empty body. -/
def AppFramework_PostSuspendHook_default (s : State) : State := s

/-- Lines 40 to 44: the weak default of the timestamp hook. -/
def AppFramework_GetTimestampHook_default : Nat := 0

/-- Lines 46 to 72.  `lock` is the token returned by `Enter_Critical` (line 54) and
`recheck` the next-event delay read inside `ShouldAbortSuspend` (line 56). -/
def Suspend (s : State) (timeInMs lock recheck : Nat) : State × List Event :=
  let timeInMs :=
    if timeInMs > MIN_WAKEUP_SAFEZONE_MS then timeInMs - MIN_WAKEUP_SAFEZONE_MS else 0
  if timeInMs > 0 then
    if ShouldAbortSuspend recheck timeInMs then
      ({ s with suspendedLastRound := false },
        [Event.PreSuspendHook, Event.Enter_Critical lock, Event.GetNextEventDelay recheck,
          Event.Exit_Critical lock])
    else
      ({ s with suspendedLastRound := true },
        [Event.PreSuspendHook, Event.Enter_Critical lock, Event.GetNextEventDelay recheck,
          Event.SuspendHook timeInMs, Event.Exit_Critical lock, Event.PostSuspendHook])
  else
    ({ s with suspendedLastRound := false }, [])

/-- Lines 75 to 78; `now` is the reading of `AppFramework_GetTimestampHook`. -/
def GetDurationToTimelineBeginning (s : State) (now : Nat) : Nat :=
  sub32 (sub32 now s.lastTick) (ActionScheduler_GetProceedingTime s)

/-- Lines 80 to 100; `lock` is the token returned by `Enter_Critical`. -/
def AppFramework_WakeLockRecursive (s : State) (hold : Bool) (lock : Nat) :
    State × List Event :=
  let count :=
    if hold then toU8 (add32 s.powerLockRecursive 1) else toU8 (sub32 s.powerLockRecursive 1)
  ({ s with powerLockRecursive := count }, [Event.Enter_Critical lock, Event.Exit_Critical lock])

/-- Lines 111 to 114.  `now` is the timestamp reading and `sched` the handle
`ActionScheduler_ScheduleReload` returns for given arguments.  The two reads inside
`GetDurationToTimelineBeginning` are recorded in textual order. -/
def AppFramework_Schedule (s : State) (now : Nat) (sched : Nat → Nat → Nat → Nat → Nat)
    (delayedTimeInMs cb arg : Nat) : Nat × List Event :=
  let initialDelay := add32 (GetDurationToTimelineBeginning s now) delayedTimeInMs
  (sched initialDelay delayedTimeInMs cb arg,
    [Event.GetTimestampHook now, Event.GetProceedingTime (ActionScheduler_GetProceedingTime s),
      Event.ScheduleReload initialDelay delayedTimeInMs cb arg])

/-- Lines 116 to 119. -/
def AppFramework_ScheduleReload (s : State) (now : Nat) (sched : Nat → Nat → Nat → Nat → Nat)
    (delayedTimeInMs reloadTimeInMs cb arg : Nat) : Nat × List Event :=
  let initialDelay := add32 (GetDurationToTimelineBeginning s now) delayedTimeInMs
  (sched initialDelay reloadTimeInMs cb arg,
    [Event.GetTimestampHook now, Event.GetProceedingTime (ActionScheduler_GetProceedingTime s),
      Event.ScheduleReload initialDelay reloadTimeInMs cb arg])

/-- Lines 121 to 124.  `actionId` is the pointer handed on unchanged and `unschedule` the
boolean `ActionScheduler_Unschedule` returns for a given argument; the result is that
boolean, the statics and the events. -/
def AppFramework_Unschedule (s : State) (unschedule : Nat → Bool) (actionId : Nat) :
    Bool × State × List Event :=
  (unschedule actionId, s, [Event.Unschedule actionId])

/-- Lines 126 to 129.  `unscheduleAll` is the boolean `ActionScheduler_UnscheduleAll`
returns for a given callback. -/
def AppFramework_UnscheduleAll (s : State) (unscheduleAll : Nat → Bool) (cb : Nat) :
    Bool × State × List Event :=
  (unscheduleAll cb, s, [Event.UnscheduleAll cb])

/-- Lines 131 to 135. -/
def AppFramework_SetSuspendEnable (s : State) (en : Bool) : State :=
  { s with suspendEnabled := en }

/-- Lines 155 to 159; `now` is the timestamp reading. -/
def AppFramework_Init (s : State) (now : Nat) : State × List Event :=
  ({ s with lastTick := now }, [Event.Clear, Event.GetTimestampHook now])

/-- One API call made by a callback: the statics after it and the collaborator calls
the framework function makes.  The value the function returns goes to the callback. -/
def ApiCall.apply (s : State) : ApiCall → State × List Event
  | ApiCall.WakeLockRecursive hold lock => AppFramework_WakeLockRecursive s hold lock
  | ApiCall.SetSuspendEnable en => (AppFramework_SetSuspendEnable s en, [])
  | ApiCall.Schedule now consumed handle delayedTimeInMs cb arg =>
    ({ s with proceedingTime := consumed },
      (AppFramework_Schedule { s with proceedingTime := consumed } now
        (fun _ _ _ _ => handle) delayedTimeInMs cb arg).2)
  | ApiCall.ScheduleReload now consumed handle delayedTimeInMs reloadTimeInMs cb arg =>
    ({ s with proceedingTime := consumed },
      (AppFramework_ScheduleReload { s with proceedingTime := consumed } now
        (fun _ _ _ _ => handle) delayedTimeInMs reloadTimeInMs cb arg).2)
  | ApiCall.Unschedule removed actionId =>
    ((AppFramework_Unschedule s (fun _ => removed) actionId).2.1,
      (AppFramework_Unschedule s (fun _ => removed) actionId).2.2)
  | ApiCall.UnscheduleAll removed cb =>
    ((AppFramework_UnscheduleAll s (fun _ => removed) cb).2.1,
      (AppFramework_UnscheduleAll s (fun _ => removed) cb).2.2)

/-- The API calls made, in order, by the callbacks that one `ActionScheduler_Proceed`
fires: the statics after them and the collaborator calls they cause, in order. -/
def applyCalls (s : State) : List ApiCall → State × List Event
  | [] => (s, [])
  | c :: cs =>
    let r := ApiCall.apply s c
    let rest := applyCalls r.1 cs
    (rest.1, r.2 ++ rest.2)

/-- What the collaborators answer during one `AppFramework_Loop` iteration. -/
structure LoopEnv where
  /-- Reading of `AppFramework_GetTimestampHook` (line 171). -/
  nowtick : Nat
  /-- API calls made by the callbacks fired inside `ActionScheduler_Proceed` (line 180). -/
  calls : List ApiCall
  /-- Token returned by `Enter_Critical` (line 183). -/
  lock : Nat
  /-- Value of `ActionScheduler_GetNextEventDelay` (line 191). -/
  nextEventDelay : Nat
  /-- Token returned by `Enter_Critical` inside `Suspend` (line 54). -/
  suspendLock : Nat
  /-- Value of `ActionScheduler_GetNextEventDelay` inside `ShouldAbortSuspend` (line 20). -/
  recheckDelay : Nat
  deriving DecidableEq, Repr

/-- Lines 161 to 195.  The callbacks fired by `ActionScheduler_Proceed` (line 180) run
at that point, on the statics as they are then (`lastTick` not yet rewritten), and the
collaborator calls they cause follow the `Proceed` event; whatever value the advance
leaves in the consumed-time marker is overwritten by the clear of line 185. -/
def AppFramework_Loop (s : State) (env : LoopEnv) : State × List Event :=
  let nowtick := env.nowtick
  let elapsed := sub32 nowtick s.lastTick
  let s1 := if s.suspendedLastRound then { s with suspendedLastRound := false } else s
  let s2 := applyCalls s1 env.calls
  let s3 := ActionScheduler_ClearProceedingTime { s2.1 with lastTick := nowtick }
  let advance :=
    [Event.GetTimestampHook nowtick, Event.Proceed elapsed] ++ s2.2 ++
      [Event.Enter_Critical env.lock, Event.ClearProceedingTime, Event.Exit_Critical env.lock]
  if s3.suspendEnabled then
    if s3.powerLockRecursive = 0 then
      let nextEventDelay := env.nextEventDelay
      let r := Suspend s3 nextEventDelay env.suspendLock env.recheckDelay
      (r.1, advance ++ Event.GetNextEventDelay nextEventDelay :: r.2)
    else
      (s3, advance)
  else
    (s3, advance)

/-- The statics when control reaches line 187 of `AppFramework_Loop`: the last-suspend
flag cleared (lines 174 to 178), the callbacks of the advance run (line 180),
`lastTick` resynchronised and the consumed-time marker cleared (lines 183 to 186). -/
def stateAtGate (s : State) (env : LoopEnv) : State :=
  let s1 := if s.suspendedLastRound then { s with suspendedLastRound := false } else s
  let s2 := applyCalls s1 env.calls
  ActionScheduler_ClearProceedingTime { s2.1 with lastTick := env.nowtick }

/-- The collaborator calls caused by the callbacks of the advance of line 180, which
run after lines 174 to 178 cleared the last-suspend flag. -/
def callbackEvents (s : State) (env : LoopEnv) : List Event :=
  let s1 := if s.suspendedLastRound then { s with suspendedLastRound := false } else s
  (applyCalls s1 env.calls).2

/-- The events of lines 171 to 186 of `AppFramework_Loop`: the timestamp read, the
advance with the calls its callbacks cause, and the critical section of lines 183 to
186. -/
def advanceEvents (s : State) (env : LoopEnv) : List Event :=
  [Event.GetTimestampHook env.nowtick, Event.Proceed (sub32 env.nowtick s.lastTick)] ++
    callbackEvents s env ++
    [Event.Enter_Critical env.lock, Event.ClearProceedingTime, Event.Exit_Critical env.lock]

/-- Consecutive `AppFramework_Loop` iterations, one per environment. -/
def runLoops (s : State) : List LoopEnv → State × List Event
  | [] => (s, [])
  | env :: envs =>
    let r := AppFramework_Loop s env
    let rest := runLoops r.1 envs
    (rest.1, r.2 ++ rest.2)

/-- A sequence of `AppFramework_WakeLockRecursive` calls; each entry is the `hold`
argument and the token `Enter_Critical` returned during that call. -/
def wakeLockSeq (s : State) (ops : List (Bool × Nat)) : State :=
  ops.foldl (fun st op => (AppFramework_WakeLockRecursive st op.1 op.2).1) s

/-- Number of holds in a sequence of wake-lock calls. -/
def holdCount (ops : List (Bool × Nat)) : Nat := (ops.filter (fun op => op.1)).length

/-- Number of releases in a sequence of wake-lock calls. -/
def releaseCount (ops : List (Bool × Nat)) : Nat := (ops.filter (fun op => !op.1)).length

/-- The count in the specification's words: "holds-minus-releases, clamped to never
go below zero". -/
def clampedCount (ops : List (Bool × Nat)) : Int :=
  max 0 ((holdCount ops : Int) - (releaseCount ops : Int))

/-- The count of a counter that saturates at zero, in the specification's words: "a
release when the count is already zero leaves it at zero rather than wrapping". -/
def saturatingCount (ops : List (Bool × Nat)) : Nat :=
  ops.foldl (fun c op => if op.1 then c + 1 else c - 1) 0

/-! ## `wake_lock.h` -/

/-- Lines 14 to 18 of `wake_lock.h`.  `m` is the including module's
`module_wake_lock`; the result is its new value, the new statics and the events. -/
def ACQUIRE_WAKELOCK (m : Nat) (s : State) (lock : Nat) : Nat × State × List Event :=
  let m1 := toU8 (m + 1)
  let r := AppFramework_WakeLockRecursive s true lock
  (m1, r.1, r.2)

/-- Lines 19 to 28 of `wake_lock.h`. -/
def RELEASE_WAKELOCK (m : Nat) (s : State) (lock : Nat) : Nat × State × List Event :=
  if m > 0 then
    let r := AppFramework_WakeLockRecursive s false lock
    (toU8 (m - 1), r.1, r.2)
  else
    (m, s, [])

/-- Line 30 of `wake_lock.h`. -/
def IS_WAKELOCK (m : Nat) : Nat := m

/-- A sequence of macro uses inside one module, starting from `module_wake_lock = m`:
each entry says whether it is `ACQUIRE_WAKELOCK` (`true`) or `RELEASE_WAKELOCK`
(`false`) and gives the token `Enter_Critical` returns if the macro reaches it.  The
result is the module's count and the statics. -/
def moduleMacroSeq (m : Nat) (s : State) : List (Bool × Nat) → Nat × State
  | [] => (m, s)
  | op :: ops =>
    let r := if op.1 then ACQUIRE_WAKELOCK m s op.2 else RELEASE_WAKELOCK m s op.2
    moduleMacroSeq r.1 r.2.1 ops

/-- A sequence of macro uses spread over several modules; `ms` lists the
`module_wake_lock` of each module and an entry of the sequence names the module by
its index, followed by the macro and the token as in `moduleMacroSeq`.  A use that
names no module of `ms` is skipped. -/
def modulesMacroSeq (ms : List Nat) (s : State) : List (Nat × Bool × Nat) → List Nat × State
  | [] => (ms, s)
  | op :: ops =>
    match ms[op.1]? with
    | none => modulesMacroSeq ms s ops
    | some m =>
      let r := if op.2.1 then ACQUIRE_WAKELOCK m s op.2.2 else RELEASE_WAKELOCK m s op.2.2
      modulesMacroSeq (ms.set op.1 r.1) r.2.1 ops

/-! ## Observations on traces -/

/-- The arguments of the `ActionScheduler_Proceed` calls of a trace, in order. -/
def proceedArgs : List Event → List Nat
  | [] => []
  | Event.Proceed e :: tr => e :: proceedArgs tr
  | _ :: tr => proceedArgs tr

/-- The arguments of the `AppFramework_SuspendHook` calls of a trace, in order. -/
def suspendArgs : List Event → List Nat
  | [] => []
  | Event.SuspendHook t :: tr => t :: suspendArgs tr
  | _ :: tr => suspendArgs tr

/-- The initial delays of the `ActionScheduler_ScheduleReload` calls of a trace. -/
def scheduledDelays : List Event → List Nat
  | [] => []
  | Event.ScheduleReload d _ _ _ :: tr => d :: scheduledDelays tr
  | _ :: tr => scheduledDelays tr

/-- Whether an event is a call of one of the three suspend hooks. -/
def Event.isSuspendHookCall : Event → Bool
  | Event.PreSuspendHook => true
  | Event.SuspendHook _ => true
  | Event.PostSuspendHook => true
  | _ => false

/-- The critical-section calls of a trace, in order. -/
def criticalEvents : List Event → List Event
  | [] => []
  | Event.Enter_Critical tok :: tr => Event.Enter_Critical tok :: criticalEvents tr
  | Event.Exit_Critical tok :: tr => Event.Exit_Critical tok :: criticalEvents tr
  | _ :: tr => criticalEvents tr

/-- Replays a trace against the stack of tokens of the critical sections still open:
`Enter_Critical` pushes the token it returned, `Exit_Critical` must be called with the
token on top of the stack and pops it.  The trace is balanced when every exit matches
and the stack it ends with is empty. -/
def criticalBalanced : List Event → List Nat → Bool
  | [], stack => stack.isEmpty
  | e :: tr, stack =>
    match e with
    | Event.Enter_Critical tok => criticalBalanced tr (tok :: stack)
    | Event.Exit_Critical tok =>
      match stack with
      | [] => false
      | top :: rest => decide (tok = top) && criticalBalanced tr rest
    | _ => criticalBalanced tr stack

/-- Whether an event can come from a framework API function that a callback calls:
the critical section of `AppFramework_WakeLockRecursive`, the reads and the scheduling
call of the facade, and the two unschedule calls. -/
def Event.isApiEvent : Event → Bool
  | Event.Enter_Critical _ => true
  | Event.Exit_Critical _ => true
  | Event.GetTimestampHook _ => true
  | Event.GetProceedingTime _ => true
  | Event.ScheduleReload _ _ _ _ => true
  | Event.Unschedule _ => true
  | Event.UnscheduleAll _ => true
  | _ => false

/-- The critical sections opened and closed by the `AppFramework_WakeLockRecursive`
calls among the API calls of the callbacks: one pair per call, with its token. -/
def wakeLockPairs : List ApiCall → List Event
  | [] => []
  | ApiCall.WakeLockRecursive _ lock :: cs =>
    Event.Enter_Critical lock :: Event.Exit_Critical lock :: wakeLockPairs cs
  | _ :: cs => wakeLockPairs cs

/-- The timestamp the last iteration of a run read, `t0` when there is none. -/
def lastStamp (t0 : Nat) : List LoopEnv → Nat
  | [] => t0
  | env :: envs => lastStamp env.nowtick envs

/-- The timestamps `t0, t1, ..., tn` never decrease and all fit in 32 bits. -/
def stampsMonotone (t0 : Nat) : List LoopEnv → Prop
  | [] => t0 < U32
  | env :: envs => t0 ≤ env.nowtick ∧ stampsMonotone env.nowtick envs

/-! ## Concrete scenarios -/

/-- The specification's scenario for the scheduling facade: `lastTick = 0` and an
advance in progress that has consumed 5 ms. -/
def midAdvance : State :=
  { lastTick := 0, suspendEnabled := true, powerLockRecursive := 0,
    suspendedLastRound := false, proceedingTime := 5 }

/-- Two iterations, reading the timestamps 15 and 25; a callback of the second
advance holds a wake lock. -/
def twoIterations : List LoopEnv :=
  [{ nowtick := 15, calls := [], lock := 1, nextEventDelay := 4, suspendLock := 2,
     recheckDelay := 4 },
   { nowtick := 25, calls := [ApiCall.WakeLockRecursive true 3], lock := 1,
     nextEventDelay := 0, suspendLock := 2, recheckDelay := 0 }]

/-- Statics with suspension enabled and no wake lock held, `lastTick = 100`. -/
def idleState : State :=
  { lastTick := 100, suspendEnabled := true, powerLockRecursive := 0,
    suspendedLastRound := false, proceedingTime := 0 }

/-- An iteration at timestamp 130 in which the next action is 40 ms away and nothing
is rescheduled before the re-check. -/
def quietEnv : LoopEnv :=
  { nowtick := 130, calls := [], lock := 11, nextEventDelay := 40, suspendLock := 12,
    recheckDelay := 40 }

/-- An iteration at timestamp 130 in which an interrupt schedules an action 3 ms away
after the 40 ms duration was chosen. -/
def racedEnv : LoopEnv :=
  { nowtick := 130, calls := [], lock := 11, nextEventDelay := 40, suspendLock := 12,
    recheckDelay := 3 }

/-- An iteration at timestamp 130 during whose advance a callback holds a wake lock. -/
def lockedEnv : LoopEnv :=
  { nowtick := 130, calls := [ApiCall.WakeLockRecursive true 13], lock := 11,
    nextEventDelay := 40, suspendLock := 12, recheckDelay := 40 }

/-- Statics in which two wake locks are held. -/
def twoHeld : State :=
  { lastTick := 100, suspendEnabled := true, powerLockRecursive := 2,
    suspendedLastRound := false, proceedingTime := 0 }

/-- Two holds followed by one release. -/
def holdHoldRelease : List (Bool × Nat) := [(true, 21), (true, 22), (false, 23)]

/-- An iteration at timestamp 130 whose advance fires a callback that holds and then
releases a wake lock, and in which an interrupt schedules an action 3 ms away after
the 40 ms duration was chosen. -/
def racedBusyEnv : LoopEnv :=
  { nowtick := 130,
    calls := [ApiCall.WakeLockRecursive true 13, ApiCall.WakeLockRecursive false 14],
    lock := 11, nextEventDelay := 40, suspendLock := 12, recheckDelay := 3 }

/-- An iteration at timestamp 130 whose advance fires a callback that, at timestamp
125 and with 20 ms of the advance consumed, schedules an action 10 ms ahead through
`AppFramework_Schedule`; the scheduler answers with the handle 77. -/
def schedulingEnv : LoopEnv :=
  { nowtick := 130, calls := [ApiCall.Schedule 125 20 77 10 7 9], lock := 11,
    nextEventDelay := 15, suspendLock := 12, recheckDelay := 15 }

/-- An iteration at timestamp 130 in which the scheduler has an action due now. -/
def dueNowEnv : LoopEnv :=
  { nowtick := 130, calls := [], lock := 11, nextEventDelay := 0, suspendLock := 12,
    recheckDelay := 0 }

/-- Three iterations with the default timestamp hook, which reads 0 each time. -/
def defaultHookRun : List LoopEnv :=
  [{ nowtick := 0, calls := [], lock := 1, nextEventDelay := 50, suspendLock := 2,
     recheckDelay := 50 },
   { nowtick := 0, calls := [], lock := 1, nextEventDelay := 50, suspendLock := 2,
     recheckDelay := 50 },
   { nowtick := 0, calls := [], lock := 1, nextEventDelay := 0, suspendLock := 2,
     recheckDelay := 0 }]

/-- Statics in which 255 wake locks are held, the largest 8-bit count. -/
def fullyHeld : State :=
  { lastTick := 100, suspendEnabled := true, powerLockRecursive := 255,
    suspendedLastRound := false, proceedingTime := 0 }

/-- Macro uses in one module: an unmatched release, two acquires, one release. -/
def oneModuleUses : List (Bool × Nat) := [(false, 40), (true, 41), (true, 42), (false, 43)]

/-- Macro uses in two modules: module 0 acquires twice, module 1 releases without
holding, acquires once, and module 0 releases once. -/
def twoModuleUses : List (Nat × Bool × Nat) :=
  [(0, true, 50), (0, true, 51), (1, false, 52), (1, true, 53), (0, false, 54)]

/-! ## Lemmas -/

theorem sub32_lt (a b : Nat) : sub32 a b < U32 := by
  unfold sub32 U32; omega

theorem add_sub32_mod (a b : Nat) : (b + sub32 a b) % U32 = a % U32 := by
  unfold sub32 U32; omega

theorem sub32_of_le (a b : Nat) (hab : b ≤ a) (ha : a < U32) : sub32 a b = a - b := by
  unfold sub32 U32 at *; omega

theorem proceedArgs_append (xs ys : List Event) :
    proceedArgs (xs ++ ys) = proceedArgs xs ++ proceedArgs ys := by
  induction xs with
  | nil => rfl
  | cons x xs ih => cases x <;> simp [proceedArgs, ih]

theorem applyCalls_cons (s : State) (c : ApiCall) (cs : List ApiCall) :
    applyCalls s (c :: cs)
      = ((applyCalls (ApiCall.apply s c).1 cs).1,
          (ApiCall.apply s c).2 ++ (applyCalls (ApiCall.apply s c).1 cs).2) := rfl

theorem applyCalls_lastTick (calls : List ApiCall) (s : State) :
    (applyCalls s calls).1.lastTick = s.lastTick := by
  induction calls generalizing s with
  | nil => rfl
  | cons c calls ih =>
    have step : (ApiCall.apply s c).1.lastTick = s.lastTick := by
      cases c <;> rfl
    rw [applyCalls_cons]
    simp only []
    rw [ih, step]

theorem ApiCall_apply_events (s : State) (c : ApiCall) :
    ∀ e ∈ (ApiCall.apply s c).2, e.isApiEvent = true := by
  intro e he
  cases c with
  | WakeLockRecursive hold lock =>
    simp only [ApiCall.apply, AppFramework_WakeLockRecursive, List.mem_cons,
      List.mem_singleton, List.not_mem_nil, or_false] at he
    rcases he with h | h <;> subst h <;> rfl
  | SetSuspendEnable en =>
    simp [ApiCall.apply] at he
  | Schedule now consumed handle d cb arg =>
    simp only [ApiCall.apply, AppFramework_Schedule, List.mem_cons, List.mem_singleton,
      List.not_mem_nil, or_false] at he
    rcases he with h | h | h <;> subst h <;> rfl
  | ScheduleReload now consumed handle d reload cb arg =>
    simp only [ApiCall.apply, AppFramework_ScheduleReload, List.mem_cons, List.mem_singleton,
      List.not_mem_nil, or_false] at he
    rcases he with h | h | h <;> subst h <;> rfl
  | Unschedule removed actionId =>
    simp only [ApiCall.apply, AppFramework_Unschedule, List.mem_singleton] at he
    subst he; rfl
  | UnscheduleAll removed cb =>
    simp only [ApiCall.apply, AppFramework_UnscheduleAll, List.mem_singleton] at he
    subst he; rfl

theorem applyCalls_events (calls : List ApiCall) (s : State) :
    ∀ e ∈ (applyCalls s calls).2, e.isApiEvent = true := by
  induction calls generalizing s with
  | nil => intro e he; simp [applyCalls] at he
  | cons c calls ih =>
    intro e he
    rw [applyCalls_cons] at he
    simp only [List.mem_append] at he
    rcases he with h | h
    · exact ApiCall_apply_events s c e h
    · exact ih _ e h

theorem callbackEvents_api (s : State) (env : LoopEnv) :
    ∀ e ∈ callbackEvents s env, e.isApiEvent = true := by
  unfold callbackEvents
  exact applyCalls_events _ _

theorem proceedArgs_api (tr : List Event) (h : ∀ e ∈ tr, e.isApiEvent = true) :
    proceedArgs tr = [] := by
  induction tr with
  | nil => rfl
  | cons x xs ih =>
    have hx := h x (List.mem_cons_self _ _)
    have hxs := ih (fun e he => h e (List.mem_cons_of_mem _ he))
    cases x <;> simp [proceedArgs, hxs, Event.isApiEvent] at hx ⊢

theorem suspendArgs_api (tr : List Event) (h : ∀ e ∈ tr, e.isApiEvent = true) :
    suspendArgs tr = [] := by
  induction tr with
  | nil => rfl
  | cons x xs ih =>
    have hx := h x (List.mem_cons_self _ _)
    have hxs := ih (fun e he => h e (List.mem_cons_of_mem _ he))
    cases x <;> simp [suspendArgs, hxs, Event.isApiEvent] at hx ⊢

theorem proceedArgs_callbackEvents (s : State) (env : LoopEnv) :
    proceedArgs (callbackEvents s env) = [] :=
  proceedArgs_api _ (callbackEvents_api s env)

theorem suspendArgs_callbackEvents (s : State) (env : LoopEnv) :
    suspendArgs (callbackEvents s env) = [] :=
  suspendArgs_api _ (callbackEvents_api s env)

theorem callbackEvents_not_mem (s : State) (env : LoopEnv) (e : Event)
    (he : e.isApiEvent = false) : e ∉ callbackEvents s env := by
  intro hmem
  rw [callbackEvents_api s env e hmem] at he
  exact absurd he (by decide)

theorem callbackEvents_no_suspend (s : State) (env : LoopEnv) (t : Nat) :
    Event.SuspendHook t ∉ callbackEvents s env :=
  callbackEvents_not_mem s env _ rfl

theorem callbackEvents_no_pre (s : State) (env : LoopEnv) :
    Event.PreSuspendHook ∉ callbackEvents s env :=
  callbackEvents_not_mem s env _ rfl

theorem callbackEvents_no_post (s : State) (env : LoopEnv) :
    Event.PostSuspendHook ∉ callbackEvents s env :=
  callbackEvents_not_mem s env _ rfl

theorem callbackEvents_no_query (s : State) (env : LoopEnv) (d : Nat) :
    Event.GetNextEventDelay d ∉ callbackEvents s env :=
  callbackEvents_not_mem s env _ rfl

theorem callbackEvents_count_pre (s : State) (env : LoopEnv) :
    (callbackEvents s env).count Event.PreSuspendHook = 0 :=
  List.count_eq_zero.mpr (callbackEvents_no_pre s env)

theorem callbackEvents_count_post (s : State) (env : LoopEnv) :
    (callbackEvents s env).count Event.PostSuspendHook = 0 :=
  List.count_eq_zero.mpr (callbackEvents_no_post s env)

theorem stateAtGate_lastTick (s : State) (env : LoopEnv) :
    (stateAtGate s env).lastTick = env.nowtick := rfl

theorem stateAtGate_proceedingTime (s : State) (env : LoopEnv) :
    (stateAtGate s env).proceedingTime = 0 := rfl

theorem Loop_eq (s : State) (env : LoopEnv) :
    AppFramework_Loop s env
      = if (stateAtGate s env).suspendEnabled then
          if (stateAtGate s env).powerLockRecursive = 0 then
            ((Suspend (stateAtGate s env) env.nextEventDelay env.suspendLock
                env.recheckDelay).1,
              advanceEvents s env ++ Event.GetNextEventDelay env.nextEventDelay ::
                (Suspend (stateAtGate s env) env.nextEventDelay env.suspendLock
                  env.recheckDelay).2)
          else (stateAtGate s env, advanceEvents s env)
        else (stateAtGate s env, advanceEvents s env) := rfl

theorem Suspend_lastTick (g : State) (t l r : Nat) :
    (Suspend g t l r).1.lastTick = g.lastTick := by
  unfold Suspend; simp only []; split_ifs <;> rfl

theorem Suspend_proceedingTime (g : State) (t l r : Nat) :
    (Suspend g t l r).1.proceedingTime = g.proceedingTime := by
  unfold Suspend; simp only []; split_ifs <;> rfl

theorem proceedArgs_Suspend (g : State) (t l r : Nat) :
    proceedArgs (Suspend g t l r).2 = [] := by
  unfold Suspend; simp only []; split_ifs <;> rfl

theorem Loop_lastTick (s : State) (env : LoopEnv) :
    (AppFramework_Loop s env).1.lastTick = env.nowtick := by
  rw [Loop_eq]
  split_ifs <;> simp [Suspend_lastTick, stateAtGate_lastTick]

theorem Loop_proceedingTime (s : State) (env : LoopEnv) :
    (AppFramework_Loop s env).1.proceedingTime = 0 := by
  rw [Loop_eq]
  split_ifs <;> simp [Suspend_proceedingTime, stateAtGate_proceedingTime]

theorem proceedArgs_Loop (s : State) (env : LoopEnv) :
    proceedArgs (AppFramework_Loop s env).2 = [sub32 env.nowtick s.lastTick] := by
  rw [Loop_eq]
  split_ifs <;>
    simp [proceedArgs_append, proceedArgs, advanceEvents, proceedArgs_Suspend,
      proceedArgs_callbackEvents]

theorem runLoops_proceedArgs_length (envs : List LoopEnv) (s : State) :
    (proceedArgs (runLoops s envs).2).length = envs.length := by
  induction envs generalizing s with
  | nil => rfl
  | cons env envs ih =>
    simp [runLoops, proceedArgs_append, proceedArgs_Loop, ih]

theorem runLoops_proceedArgs_sum_mod (envs : List LoopEnv) (s : State) :
    (proceedArgs (runLoops s envs).2).sum % U32 = sub32 (lastStamp s.lastTick envs) s.lastTick := by
  induction envs generalizing s with
  | nil =>
    simp only [runLoops, proceedArgs, lastStamp, List.sum_nil]
    unfold sub32 U32; omega
  | cons env envs ih =>
    have h := ih (AppFramework_Loop s env).1
    rw [Loop_lastTick] at h
    simp only [runLoops, proceedArgs_append, proceedArgs_Loop, List.sum_append, List.sum_cons,
      List.sum_nil, lastStamp, Nat.add_zero]
    generalize (proceedArgs (runLoops (AppFramework_Loop s env).1 envs).2).sum = rest at h ⊢
    generalize lastStamp env.nowtick envs = tn at h ⊢
    unfold sub32 U32 at *; omega

theorem stampsMonotone_last (envs : List LoopEnv) (t0 : Nat) (h : stampsMonotone t0 envs) :
    t0 ≤ lastStamp t0 envs ∧ lastStamp t0 envs < U32 := by
  induction envs generalizing t0 with
  | nil => exact ⟨Nat.le_refl _, h⟩
  | cons env envs ih =>
    obtain ⟨h1, h2⟩ := h
    have := ih env.nowtick h2
    simp only [lastStamp]; omega

theorem runLoops_proceedArgs_sum_exact (envs : List LoopEnv) (s : State)
    (h : stampsMonotone s.lastTick envs) :
    (proceedArgs (runLoops s envs).2).sum = lastStamp s.lastTick envs - s.lastTick := by
  induction envs generalizing s with
  | nil => simp [runLoops, proceedArgs, lastStamp]
  | cons env envs ih =>
    obtain ⟨h1, h2⟩ := h
    have hl := stampsMonotone_last envs env.nowtick h2
    have h3 := ih (AppFramework_Loop s env).1 (by rw [Loop_lastTick]; exact h2)
    rw [Loop_lastTick] at h3
    simp only [runLoops, proceedArgs_append, proceedArgs_Loop, List.sum_append, List.sum_cons,
      List.sum_nil, lastStamp, Nat.add_zero, h3]
    rw [sub32_of_le _ _ h1 (by omega)]
    omega

theorem applyCalls_suspendedLastRound (calls : List ApiCall) (s : State) :
    (applyCalls s calls).1.suspendedLastRound = s.suspendedLastRound := by
  induction calls generalizing s with
  | nil => rfl
  | cons c calls ih =>
    have step : (ApiCall.apply s c).1.suspendedLastRound = s.suspendedLastRound := by
      cases c <;> rfl
    rw [applyCalls_cons]
    simp only []
    rw [ih, step]

theorem stateAtGate_suspendedLastRound (s : State) (env : LoopEnv) :
    (stateAtGate s env).suspendedLastRound = false := by
  unfold stateAtGate ActionScheduler_ClearProceedingTime
  simp only [applyCalls_suspendedLastRound]
  split_ifs with h
  · rfl
  · simpa using h

theorem stateAtGate_no_calls (s : State) (env : LoopEnv) (h : env.calls = []) :
    (stateAtGate s env).powerLockRecursive = s.powerLockRecursive ∧
    (stateAtGate s env).suspendEnabled = s.suspendEnabled := by
  unfold stateAtGate ActionScheduler_ClearProceedingTime
  rw [h]
  split_ifs <;> exact ⟨rfl, rfl⟩

theorem Suspend_suspendEnabled (g : State) (t l r : Nat) :
    (Suspend g t l r).1.suspendEnabled = g.suspendEnabled := by
  unfold Suspend; simp only []; split_ifs <;> rfl

theorem Suspend_abort (g : State) (t l r : Nat) (h : r < t - MIN_WAKEUP_SAFEZONE_MS) :
    Suspend g t l r = ({ g with suspendedLastRound := false },
      [Event.PreSuspendHook, Event.Enter_Critical l, Event.GetNextEventDelay r,
        Event.Exit_Critical l]) := by
  unfold Suspend ShouldAbortSuspend
  unfold MIN_WAKEUP_SAFEZONE_MS at *
  simp only []
  have h1 : t > 0 := by omega
  have h2 : r < t := by omega
  simp [h1, h2]

theorem advanceEvents_no_hook (s : State) (env : LoopEnv) :
    ∀ e ∈ advanceEvents s env, e.isSuspendHookCall = false := by
  intro e he
  simp only [advanceEvents, List.mem_append, List.mem_cons, List.mem_singleton,
    List.not_mem_nil, or_false] at he
  rcases he with ((h | h) | h) | h | h | h
  · subst h; rfl
  · subst h; rfl
  · have hapi := callbackEvents_api s env e h
    cases e <;> simp [Event.isApiEvent] at hapi <;> rfl
  · subst h; rfl
  · subst h; rfl
  · subst h; rfl

theorem advanceEvents_no_suspend (s : State) (env : LoopEnv) (t : Nat) :
    Event.SuspendHook t ∉ advanceEvents s env := by
  intro h
  have := advanceEvents_no_hook s env _ h
  simp [Event.isSuspendHookCall] at this

theorem advanceEvents_no_pre (s : State) (env : LoopEnv) :
    Event.PreSuspendHook ∉ advanceEvents s env := by
  intro h
  have := advanceEvents_no_hook s env _ h
  simp [Event.isSuspendHookCall] at this

theorem advanceEvents_no_post (s : State) (env : LoopEnv) :
    Event.PostSuspendHook ∉ advanceEvents s env := by
  intro h
  have := advanceEvents_no_hook s env _ h
  simp [Event.isSuspendHookCall] at this

theorem advanceEvents_no_query (s : State) (env : LoopEnv) (d : Nat) :
    Event.GetNextEventDelay d ∉ advanceEvents s env := by
  simp [advanceEvents, callbackEvents_no_query]

theorem advanceEvents_count_pre (s : State) (env : LoopEnv) :
    (advanceEvents s env).count Event.PreSuspendHook = 0 :=
  List.count_eq_zero.mpr (advanceEvents_no_pre s env)

theorem advanceEvents_count_post (s : State) (env : LoopEnv) :
    (advanceEvents s env).count Event.PostSuspendHook = 0 :=
  List.count_eq_zero.mpr (advanceEvents_no_post s env)

theorem Loop_gate_closed (s : State) (env : LoopEnv)
    (h : (stateAtGate s env).suspendEnabled = false ∨ (stateAtGate s env).powerLockRecursive ≠ 0) :
    AppFramework_Loop s env = (stateAtGate s env, advanceEvents s env) := by
  rw [Loop_eq]
  rcases h with h | h
  · simp [h]
  · simp [h]

theorem Loop_gate_open (s : State) (env : LoopEnv)
    (hen : (stateAtGate s env).suspendEnabled = true)
    (hcnt : (stateAtGate s env).powerLockRecursive = 0) :
    AppFramework_Loop s env
      = ((Suspend (stateAtGate s env) env.nextEventDelay env.suspendLock env.recheckDelay).1,
          advanceEvents s env ++ Event.GetNextEventDelay env.nextEventDelay ::
            (Suspend (stateAtGate s env) env.nextEventDelay env.suspendLock
              env.recheckDelay).2) := by
  rw [Loop_eq]
  simp [hen, hcnt]

theorem Loop_suspendEnabled (s : State) (env : LoopEnv) :
    (AppFramework_Loop s env).1.suspendEnabled = (stateAtGate s env).suspendEnabled := by
  rw [Loop_eq]
  split_ifs <;> simp [Suspend_suspendEnabled]

theorem applyCalls_stays_disabled (calls : List ApiCall) (s : State)
    (hs : s.suspendEnabled = false) (h : ApiCall.SetSuspendEnable true ∉ calls) :
    (applyCalls s calls).1.suspendEnabled = false := by
  induction calls generalizing s with
  | nil => exact hs
  | cons c calls ih =>
    simp only [List.mem_cons, not_or] at h
    rw [applyCalls_cons]
    simp only []
    apply ih _ _ h.2
    cases c with
    | WakeLockRecursive hold lock => exact hs
    | SetSuspendEnable en =>
      cases en with
      | false => rfl
      | true => exact absurd rfl h.1
    | Schedule now consumed handle d cb arg => exact hs
    | ScheduleReload now consumed handle d reload cb arg => exact hs
    | Unschedule removed actionId => exact hs
    | UnscheduleAll removed cb => exact hs

theorem stateAtGate_stays_disabled (s : State) (env : LoopEnv)
    (hs : s.suspendEnabled = false) (h : ApiCall.SetSuspendEnable true ∉ env.calls) :
    (stateAtGate s env).suspendEnabled = false := by
  unfold stateAtGate ActionScheduler_ClearProceedingTime
  simp only []
  apply applyCalls_stays_disabled _ _ _ h
  split_ifs <;> exact hs

theorem runLoops_disabled (envs : List LoopEnv) (s : State) (hs : s.suspendEnabled = false)
    (h : ∀ env ∈ envs, ApiCall.SetSuspendEnable true ∉ env.calls) :
    ∀ e ∈ (runLoops s envs).2, e.isSuspendHookCall = false := by
  induction envs generalizing s with
  | nil => intro e he; simp [runLoops] at he
  | cons env envs ih =>
    have hg := stateAtGate_stays_disabled s env hs (h env (List.mem_cons_self _ _))
    have hl := Loop_gate_closed s env (Or.inl hg)
    intro e he
    simp only [runLoops, List.mem_append] at he
    rcases he with he | he
    · rw [hl] at he
      exact advanceEvents_no_hook s env e he
    · refine ih (AppFramework_Loop s env).1 ?_ ?_ e he
      · rw [Loop_suspendEnabled]; exact hg
      · intro env2 h2
        exact h env2 (List.mem_cons_of_mem _ h2)

theorem Suspend_trace (g : State) (d l r : Nat) :
    (d ≤ MIN_WAKEUP_SAFEZONE_MS ∧ Suspend g d l r = ({ g with suspendedLastRound := false }, [])) ∨
    (r < d - MIN_WAKEUP_SAFEZONE_MS ∧
      Suspend g d l r = ({ g with suspendedLastRound := false },
        [Event.PreSuspendHook, Event.Enter_Critical l, Event.GetNextEventDelay r,
          Event.Exit_Critical l])) ∨
    (0 < d - MIN_WAKEUP_SAFEZONE_MS ∧ d - MIN_WAKEUP_SAFEZONE_MS ≤ r ∧
      Suspend g d l r = ({ g with suspendedLastRound := true },
        [Event.PreSuspendHook, Event.Enter_Critical l, Event.GetNextEventDelay r,
          Event.SuspendHook (d - MIN_WAKEUP_SAFEZONE_MS), Event.Exit_Critical l,
          Event.PostSuspendHook])) := by
  by_cases h0 : d ≤ MIN_WAKEUP_SAFEZONE_MS
  · left
    refine ⟨h0, ?_⟩
    unfold Suspend
    unfold MIN_WAKEUP_SAFEZONE_MS at *
    have : d = 0 := by omega
    subst this
    simp
  · right
    by_cases h1 : r < d - MIN_WAKEUP_SAFEZONE_MS
    · left
      exact ⟨h1, Suspend_abort g d l r h1⟩
    · right
      refine ⟨by omega, by omega, ?_⟩
      unfold Suspend ShouldAbortSuspend
      unfold MIN_WAKEUP_SAFEZONE_MS at *
      have h2 : d > 0 := by omega
      have h3 : ¬ r < d := by omega
      simp [h2, h3]

theorem suspendArgs_append (xs ys : List Event) :
    suspendArgs (xs ++ ys) = suspendArgs xs ++ suspendArgs ys := by
  induction xs with
  | nil => rfl
  | cons x xs ih => cases x <;> simp [suspendArgs, ih]

theorem mem_suspendArgs (tr : List Event) (t : Nat) :
    t ∈ suspendArgs tr ↔ Event.SuspendHook t ∈ tr := by
  induction tr with
  | nil => simp [suspendArgs]
  | cons x xs ih => cases x <;> simp [suspendArgs, ih]

theorem suspendArgs_advanceEvents (s : State) (env : LoopEnv) :
    suspendArgs (advanceEvents s env) = [] := by
  apply List.eq_nil_iff_forall_not_mem.mpr
  intro t ht
  exact advanceEvents_no_suspend s env t ((mem_suspendArgs _ t).mp ht)

theorem wakeLockSeq_cons (s : State) (op : Bool × Nat) (ops : List (Bool × Nat)) :
    wakeLockSeq s (op :: ops)
      = wakeLockSeq (AppFramework_WakeLockRecursive s op.1 op.2).1 ops := rfl

theorem WakeLock_hold_count (s : State) (lock : Nat) :
    (AppFramework_WakeLockRecursive s true lock).1.powerLockRecursive
      = toU8 (add32 s.powerLockRecursive 1) := by
  simp [AppFramework_WakeLockRecursive]

theorem WakeLock_release_count (s : State) (lock : Nat) :
    (AppFramework_WakeLockRecursive s false lock).1.powerLockRecursive
      = toU8 (sub32 s.powerLockRecursive 1) := by
  simp [AppFramework_WakeLockRecursive]

theorem holdCount_cons (op : Bool × Nat) (ops : List (Bool × Nat)) :
    holdCount (op :: ops) = (if op.1 then 1 else 0) + holdCount ops := by
  unfold holdCount
  cases h : op.1 <;> simp [List.filter_cons, h]
  all_goals omega

theorem releaseCount_cons (op : Bool × Nat) (ops : List (Bool × Nat)) :
    releaseCount (op :: ops) = (if op.1 then 0 else 1) + releaseCount ops := by
  unfold releaseCount
  cases h : op.1 <;> simp [List.filter_cons, h]
  all_goals omega

theorem wakeLockSeq_count_mod (ops : List (Bool × Nat)) (s : State) :
    (wakeLockSeq s ops).powerLockRecursive % U8
      = (s.powerLockRecursive + holdCount ops + 255 * releaseCount ops) % U8 := by
  induction ops generalizing s with
  | nil => simp [wakeLockSeq, holdCount, releaseCount]
  | cons op ops ih =>
    rw [wakeLockSeq_cons, ih, holdCount_cons, releaseCount_cons]
    obtain ⟨hold, lock⟩ := op
    cases hold
    · simp only [WakeLock_release_count]
      unfold toU8 sub32 U32 U8
      simp only [Bool.false_eq_true, if_false, if_true]
      omega
    · simp only [WakeLock_hold_count]
      unfold toU8 add32 U32 U8
      simp only [if_true]
      omega

theorem wakeLockSeq_count_lt (ops : List (Bool × Nat)) (s : State)
    (hs : s.powerLockRecursive < U8) : (wakeLockSeq s ops).powerLockRecursive < U8 := by
  induction ops generalizing s with
  | nil => exact hs
  | cons op ops ih =>
    rw [wakeLockSeq_cons]
    apply ih
    obtain ⟨hold, lock⟩ := op
    cases hold
    · simp only [WakeLock_release_count]; unfold toU8 sub32 U32 U8; omega
    · simp only [WakeLock_hold_count]; unfold toU8 add32 U32 U8; omega

theorem wakeLockSeq_count_exact (ops : List (Bool × Nat)) (s : State)
    (h : ∀ k, releaseCount (ops.take k) ≤ s.powerLockRecursive + holdCount (ops.take k) ∧
      s.powerLockRecursive + holdCount (ops.take k) - releaseCount (ops.take k) < U8) :
    (wakeLockSeq s ops).powerLockRecursive
      = s.powerLockRecursive + holdCount ops - releaseCount ops := by
  induction ops generalizing s with
  | nil => simp [wakeLockSeq, holdCount, releaseCount]
  | cons op ops ih =>
    have h0 := h 0
    have h1 := h 1
    simp only [List.take_zero, List.take_succ_cons, holdCount_cons, releaseCount_cons] at h0 h1
    have hnil : holdCount ([] : List (Bool × Nat)) = 0 ∧
        releaseCount ([] : List (Bool × Nat)) = 0 := ⟨rfl, rfl⟩
    rw [hnil.1, hnil.2] at h0 h1
    rw [wakeLockSeq_cons, holdCount_cons, releaseCount_cons]
    obtain ⟨hold, lock⟩ := op
    cases hold
    · simp only [Bool.false_eq_true, if_false] at h1 ⊢
      have hstep : (AppFramework_WakeLockRecursive s false lock).1.powerLockRecursive
          = s.powerLockRecursive - 1 := by
        rw [WakeLock_release_count]; unfold toU8 sub32; unfold U32 U8 at *; omega
      rw [ih, hstep]
      · omega
      · intro k
        have hk := h (k + 1)
        simp only [List.take_succ_cons, holdCount_cons, releaseCount_cons, Bool.false_eq_true,
          if_false] at hk
        rw [hstep]; omega
    · simp only [if_true] at h1 ⊢
      have hstep : (AppFramework_WakeLockRecursive s true lock).1.powerLockRecursive
          = s.powerLockRecursive + 1 := by
        rw [WakeLock_hold_count]; unfold toU8 add32; unfold U32 U8 at *; omega
      rw [ih, hstep]
      · omega
      · intro k
        have hk := h (k + 1)
        simp only [List.take_succ_cons, holdCount_cons, releaseCount_cons, if_true] at hk
        rw [hstep]; omega

theorem wakeLockSeq_count_exact_bounded (ops : List (Bool × Nat)) (s : State)
    (h : ∀ k, k ≤ ops.length →
      releaseCount (ops.take k) ≤ s.powerLockRecursive + holdCount (ops.take k) ∧
      s.powerLockRecursive + holdCount (ops.take k) - releaseCount (ops.take k) < U8) :
    (wakeLockSeq s ops).powerLockRecursive
      = s.powerLockRecursive + holdCount ops - releaseCount ops := by
  apply wakeLockSeq_count_exact
  intro k
  by_cases hk : k ≤ ops.length
  · exact h k hk
  · have hfull : ops.take k = ops := List.take_of_length_le (by omega)
    have := h ops.length (Nat.le_refl _)
    rw [List.take_length] at this
    rw [hfull]; exact this

theorem Suspend_completed (g : State) (d l r : Nat)
    (hpos : 0 < d - MIN_WAKEUP_SAFEZONE_MS) (hre : d - MIN_WAKEUP_SAFEZONE_MS ≤ r) :
    Suspend g d l r = ({ g with suspendedLastRound := true },
      [Event.PreSuspendHook, Event.Enter_Critical l, Event.GetNextEventDelay r,
        Event.SuspendHook (d - MIN_WAKEUP_SAFEZONE_MS), Event.Exit_Critical l,
        Event.PostSuspendHook]) := by
  rcases Suspend_trace g d l r with ⟨h1, _⟩ | ⟨h1, _⟩ | ⟨_, _, h3⟩
  · omega
  · omega
  · exact h3

theorem Suspend_skipped (g : State) (d l r : Nat) (h : d ≤ MIN_WAKEUP_SAFEZONE_MS) :
    Suspend g d l r = ({ g with suspendedLastRound := false }, []) := by
  rcases Suspend_trace g d l r with ⟨_, h2⟩ | ⟨h1, _⟩ | ⟨h1, _, _⟩
  · exact h2
  · omega
  · omega

theorem runLoops_default_stamp (envs : List LoopEnv) (s : State) (hs : s.lastTick = 0)
    (h : ∀ env ∈ envs, env.nowtick = 0) :
    proceedArgs (runLoops s envs).2 = List.replicate envs.length 0 ∧
    (runLoops s envs).1.lastTick = 0 := by
  induction envs generalizing s with
  | nil => exact ⟨rfl, hs⟩
  | cons env envs ih =>
    have henv := h env (List.mem_cons_self _ _)
    have hnext : (AppFramework_Loop s env).1.lastTick = 0 := by
      rw [Loop_lastTick]; exact henv
    have hrest := ih (AppFramework_Loop s env).1 hnext
      (fun e he => h e (List.mem_cons_of_mem _ he))
    have hzero : sub32 env.nowtick s.lastTick = 0 := by
      rw [henv, hs]; decide
    simp only [runLoops, proceedArgs_append, proceedArgs_Loop, hrest.1, hzero,
      List.length_cons, List.replicate_succ, List.singleton_append]
    exact ⟨trivial, hrest.2⟩

theorem Loop_cases (s : State) (env : LoopEnv) :
    (((stateAtGate s env).suspendEnabled = false ∨ (stateAtGate s env).powerLockRecursive ≠ 0) ∧
      AppFramework_Loop s env = (stateAtGate s env, advanceEvents s env)) ∨
    (((stateAtGate s env).suspendEnabled = true ∧ (stateAtGate s env).powerLockRecursive = 0) ∧
      env.nextEventDelay ≤ MIN_WAKEUP_SAFEZONE_MS ∧
      AppFramework_Loop s env
        = ({ stateAtGate s env with suspendedLastRound := false },
            advanceEvents s env ++ [Event.GetNextEventDelay env.nextEventDelay])) ∨
    (((stateAtGate s env).suspendEnabled = true ∧ (stateAtGate s env).powerLockRecursive = 0) ∧
      env.recheckDelay < env.nextEventDelay - MIN_WAKEUP_SAFEZONE_MS ∧
      AppFramework_Loop s env
        = ({ stateAtGate s env with suspendedLastRound := false },
            advanceEvents s env ++
              [Event.GetNextEventDelay env.nextEventDelay, Event.PreSuspendHook,
                Event.Enter_Critical env.suspendLock, Event.GetNextEventDelay env.recheckDelay,
                Event.Exit_Critical env.suspendLock])) ∨
    (((stateAtGate s env).suspendEnabled = true ∧ (stateAtGate s env).powerLockRecursive = 0) ∧
      (0 < env.nextEventDelay - MIN_WAKEUP_SAFEZONE_MS ∧
        env.nextEventDelay - MIN_WAKEUP_SAFEZONE_MS ≤ env.recheckDelay) ∧
      AppFramework_Loop s env
        = ({ stateAtGate s env with suspendedLastRound := true },
            advanceEvents s env ++
              [Event.GetNextEventDelay env.nextEventDelay, Event.PreSuspendHook,
                Event.Enter_Critical env.suspendLock, Event.GetNextEventDelay env.recheckDelay,
                Event.SuspendHook (env.nextEventDelay - MIN_WAKEUP_SAFEZONE_MS),
                Event.Exit_Critical env.suspendLock, Event.PostSuspendHook])) := by
  by_cases hgate : (stateAtGate s env).suspendEnabled = true ∧
      (stateAtGate s env).powerLockRecursive = 0
  · right
    have hopen := Loop_gate_open s env hgate.1 hgate.2
    rcases Suspend_trace (stateAtGate s env) env.nextEventDelay env.suspendLock
      env.recheckDelay with ⟨h1, h2⟩ | ⟨h1, h2⟩ | ⟨h1, h2, h3⟩
    · left
      refine ⟨hgate, h1, ?_⟩
      rw [hopen, h2]
    · right; left
      refine ⟨hgate, h1, ?_⟩
      rw [hopen, h2]
    · right; right
      refine ⟨hgate, ⟨h1, h2⟩, ?_⟩
      rw [hopen, h3]
  · left
    have hclosed : (stateAtGate s env).suspendEnabled = false ∨
        (stateAtGate s env).powerLockRecursive ≠ 0 := by
      by_cases hen : (stateAtGate s env).suspendEnabled = true
      · right; intro h0; exact hgate ⟨hen, h0⟩
      · left; simpa using hen
    exact ⟨hclosed, Loop_gate_closed s env hclosed⟩

theorem ACQUIRE_step (m : Nat) (s : State) (lock : Nat) :
    ((ACQUIRE_WAKELOCK m s lock).2.1.powerLockRecursive + m) % 256
      = (s.powerLockRecursive + (ACQUIRE_WAKELOCK m s lock).1) % 256 ∧
    (ACQUIRE_WAKELOCK m s lock).2.1.powerLockRecursive < 256 ∧
    (ACQUIRE_WAKELOCK m s lock).1 < 256 := by
  have hm : (ACQUIRE_WAKELOCK m s lock).1 = toU8 (m + 1) := by simp [ACQUIRE_WAKELOCK]
  have hg : (ACQUIRE_WAKELOCK m s lock).2.1.powerLockRecursive
      = toU8 (add32 s.powerLockRecursive 1) := by
    simp [ACQUIRE_WAKELOCK, AppFramework_WakeLockRecursive]
  rw [hm, hg]
  unfold toU8 add32 U32 U8
  omega

theorem RELEASE_step (m : Nat) (s : State) (lock : Nat) :
    ((RELEASE_WAKELOCK m s lock).2.1.powerLockRecursive + m) % 256
      = (s.powerLockRecursive + (RELEASE_WAKELOCK m s lock).1) % 256 ∧
    (s.powerLockRecursive < 256 → (RELEASE_WAKELOCK m s lock).2.1.powerLockRecursive < 256) ∧
    (m < 256 → (RELEASE_WAKELOCK m s lock).1 < 256) := by
  by_cases hpos : m > 0
  · have hm : (RELEASE_WAKELOCK m s lock).1 = toU8 (m - 1) := by
      simp [RELEASE_WAKELOCK, hpos]
    have hg : (RELEASE_WAKELOCK m s lock).2.1.powerLockRecursive
        = toU8 (sub32 s.powerLockRecursive 1) := by
      simp [RELEASE_WAKELOCK, hpos, AppFramework_WakeLockRecursive]
    rw [hm, hg]
    unfold toU8 sub32 U32 U8
    omega
  · have hm : (RELEASE_WAKELOCK m s lock).1 = m := by simp [RELEASE_WAKELOCK, hpos]
    have hg : (RELEASE_WAKELOCK m s lock).2.1 = s := by simp [RELEASE_WAKELOCK, hpos]
    rw [hm, hg]
    omega

theorem moduleMacroSeq_count (ops : List (Bool × Nat)) (m : Nat) (s : State)
    (hm : m < 256) (hg : s.powerLockRecursive = m) :
    (moduleMacroSeq m s ops).2.powerLockRecursive = (moduleMacroSeq m s ops).1 ∧
    (moduleMacroSeq m s ops).1 < 256 := by
  induction ops generalizing m s with
  | nil => exact ⟨hg, hm⟩
  | cons op ops ih =>
    obtain ⟨acq, lock⟩ := op
    cases acq
    · have hstep := RELEASE_step m s lock
      simp only [moduleMacroSeq, Bool.false_eq_true, if_false]
      apply ih
      · exact hstep.2.2 hm
      · have h1 := hstep.2.1 (by omega)
        have h2 := hstep.2.2 hm
        have h3 := hstep.1
        omega
    · have hstep := ACQUIRE_step m s lock
      simp only [moduleMacroSeq, if_true]
      apply ih
      · exact hstep.2.2
      · have h1 := hstep.2.1
        have h2 := hstep.2.2
        have h3 := hstep.1
        omega

theorem sum_set_add (ms : List Nat) (i m v : Nat) (h : ms[i]? = some m) :
    (ms.set i v).sum + m = ms.sum + v := by
  induction ms generalizing i with
  | nil => simp at h
  | cons x xs ih =>
    cases i with
    | zero =>
      simp only [List.getElem?_cons_zero, Option.some.injEq] at h
      subst h
      simp only [List.set_cons_zero, List.sum_cons]
      omega
    | succ j =>
      simp only [List.getElem?_cons_succ] at h
      have := ih j h
      simp only [List.set_cons_succ, List.sum_cons]
      omega

theorem set_same (ms : List Nat) (i m : Nat) (h : ms[i]? = some m) : ms.set i m = ms := by
  induction ms generalizing i with
  | nil => rfl
  | cons x xs ih =>
    cases i with
    | zero =>
      simp only [List.getElem?_cons_zero, Option.some.injEq] at h
      subst h
      rfl
    | succ j =>
      simp only [List.getElem?_cons_succ] at h
      simp only [List.set_cons_succ, ih j h]

theorem mem_le_sum (ms : List Nat) (m : Nat) (h : m ∈ ms) : m ≤ ms.sum := by
  induction ms with
  | nil => simp at h
  | cons x xs ih =>
    simp only [List.mem_cons] at h
    simp only [List.sum_cons]
    rcases h with h | h
    · omega
    · have := ih h; omega

theorem modulesMacroSeq_count (uses : List (Nat × Bool × Nat)) (ms : List Nat) (s : State)
    (hlt : s.powerLockRecursive < 256) (hg : s.powerLockRecursive % 256 = ms.sum % 256) :
    (modulesMacroSeq ms s uses).2.powerLockRecursive
      = (modulesMacroSeq ms s uses).1.sum % 256 := by
  induction uses generalizing ms s with
  | nil =>
    simp only [modulesMacroSeq]
    omega
  | cons op uses ih =>
    obtain ⟨i, acq, lock⟩ := op
    simp only [modulesMacroSeq]
    cases hi : ms[i]? with
    | none => exact ih ms s hlt hg
    | some m =>
      simp only []
      have hsum := fun v => sum_set_add ms i m v hi
      cases acq
      · have hstep := RELEASE_step m s lock
        simp only [Bool.false_eq_true, if_false]
        apply ih
        · exact hstep.2.1 hlt
        · have h1 := hstep.1
          have h2 := hsum (RELEASE_WAKELOCK m s lock).1
          omega
      · have hstep := ACQUIRE_step m s lock
        simp only [if_true]
        apply ih
        · exact hstep.2.1
        · have h1 := hstep.1
          have h2 := hsum (ACQUIRE_WAKELOCK m s lock).1
          omega

theorem criticalEvents_append (xs ys : List Event) :
    criticalEvents (xs ++ ys) = criticalEvents xs ++ criticalEvents ys := by
  induction xs with
  | nil => rfl
  | cons x xs ih => cases x <;> simp [criticalEvents, ih]

theorem criticalEvents_applyCalls (calls : List ApiCall) (s : State) :
    criticalEvents (applyCalls s calls).2 = wakeLockPairs calls := by
  induction calls generalizing s with
  | nil => rfl
  | cons c calls ih =>
    rw [applyCalls_cons]
    simp only [criticalEvents_append, ih]
    cases c <;>
      simp [ApiCall.apply, AppFramework_WakeLockRecursive, AppFramework_Schedule,
        AppFramework_ScheduleReload, AppFramework_Unschedule, AppFramework_UnscheduleAll,
        criticalEvents, wakeLockPairs]

theorem criticalBalanced_applyCalls (calls : List ApiCall) (s : State) (rest : List Event)
    (stack : List Nat) :
    criticalBalanced ((applyCalls s calls).2 ++ rest) stack = criticalBalanced rest stack := by
  induction calls generalizing s with
  | nil => rfl
  | cons c calls ih =>
    rw [applyCalls_cons]
    simp only [List.append_assoc]
    cases c <;>
      simp [ApiCall.apply, AppFramework_WakeLockRecursive, AppFramework_Schedule,
        AppFramework_ScheduleReload, AppFramework_Unschedule, AppFramework_UnscheduleAll,
        criticalBalanced, ih]

theorem criticalEvents_callbackEvents (s : State) (env : LoopEnv) :
    criticalEvents (callbackEvents s env) = wakeLockPairs env.calls := by
  unfold callbackEvents
  exact criticalEvents_applyCalls _ _

theorem criticalEvents_advanceEvents (s : State) (env : LoopEnv) :
    criticalEvents (advanceEvents s env)
      = wakeLockPairs env.calls ++
          [Event.Enter_Critical env.lock, Event.Exit_Critical env.lock] := by
  unfold advanceEvents callbackEvents
  simp [criticalEvents_append, criticalEvents_applyCalls, criticalEvents]

theorem criticalBalanced_advanceEvents (s : State) (env : LoopEnv) (rest : List Event) :
    criticalBalanced (advanceEvents s env ++ rest) [] = criticalBalanced rest [] := by
  unfold advanceEvents callbackEvents
  simp [criticalBalanced, criticalBalanced_applyCalls]

theorem Loop_trace_shape (s : State) (env : LoopEnv) (tail : List Event) :
    advanceEvents s env ++ tail
      = [Event.GetTimestampHook env.nowtick, Event.Proceed (sub32 env.nowtick s.lastTick)] ++
          callbackEvents s env ++
          ([Event.Enter_Critical env.lock, Event.ClearProceedingTime,
            Event.Exit_Critical env.lock] ++ tail) := by
  simp [advanceEvents]

theorem applyCalls_append (xs ys : List ApiCall) (s : State) :
    applyCalls s (xs ++ ys)
      = ((applyCalls (applyCalls s xs).1 ys).1,
          (applyCalls s xs).2 ++ (applyCalls (applyCalls s xs).1 ys).2) := by
  induction xs generalizing s with
  | nil => rfl
  | cons x xs ih =>
    simp only [List.cons_append, applyCalls_cons, ih, List.append_assoc]

theorem callbackEvents_schedule (s : State) (env : LoopEnv) (pre post : List ApiCall)
    (now consumed handle d cb arg : Nat)
    (hc : env.calls = pre ++ ApiCall.Schedule now consumed handle d cb arg :: post) :
    Event.ScheduleReload (add32 (sub32 (sub32 now s.lastTick) consumed) d) d cb arg
      ∈ callbackEvents s env := by
  unfold callbackEvents
  simp only []
  rw [hc, applyCalls_append, applyCalls_cons]
  have hlast : (applyCalls (if s.suspendedLastRound = true then
      { s with suspendedLastRound := false } else s) pre).1.lastTick = s.lastTick := by
    rw [applyCalls_lastTick]
    split_ifs <;> rfl
  simp only [ApiCall.apply, AppFramework_Schedule, GetDurationToTimelineBeginning,
    ActionScheduler_GetProceedingTime, hlast]
  simp

theorem mem_Loop_of_mem_callbackEvents (s : State) (env : LoopEnv) (e : Event)
    (he : e ∈ callbackEvents s env) : e ∈ (AppFramework_Loop s env).2 := by
  have hadv : e ∈ advanceEvents s env := by
    simp [advanceEvents, he]
  rcases Loop_cases s env with ⟨_, h⟩ | ⟨_, _, h⟩ | ⟨_, _, h⟩ | ⟨_, _, h⟩ <;>
    rw [h] <;> simp [hadv]

/-! ## Claims -/

/-- C1: after `AppFramework_Init` read `t0`, any `n` iterations of `AppFramework_Loop`
with timestamp readings `t1..tn` call `ActionScheduler_Proceed` exactly `n` times, the
arguments sum to `tn - t0` modulo `2^32`, and to `tn - t0` exactly when the readings
never decrease and stay below `2^32`; this holds for every wake-lock count, suspend
setting and callback activity. -/
theorem C1_cumulative_elapsed (s : State) (t0 : Nat) (envs : List LoopEnv) :
    (proceedArgs (runLoops (AppFramework_Init s t0).1 envs).2).length = envs.length ∧
    (proceedArgs (runLoops (AppFramework_Init s t0).1 envs).2).sum % U32
      = sub32 (lastStamp t0 envs) t0 ∧
    (((proceedArgs (runLoops (AppFramework_Init s t0).1 envs).2).sum : Nat) : Int) % 4294967296
      = ((lastStamp t0 envs : Int) - (t0 : Int)) % 4294967296 ∧
    (stampsMonotone t0 envs →
      (proceedArgs (runLoops (AppFramework_Init s t0).1 envs).2).sum
        = lastStamp t0 envs - t0) := by
  have hmod := runLoops_proceedArgs_sum_mod envs (AppFramework_Init s t0).1
  refine ⟨runLoops_proceedArgs_length _ _, hmod, ?_, ?_⟩
  · have hinit : (AppFramework_Init s t0).1.lastTick = t0 := rfl
    rw [hinit] at hmod
    generalize (proceedArgs (runLoops (AppFramework_Init s t0).1 envs).2).sum = total at hmod ⊢
    unfold sub32 U32 at hmod
    omega
  · intro h
    exact runLoops_proceedArgs_sum_exact envs (AppFramework_Init s t0).1 h

/-- C1 at a concrete run: init at 10, iterations at 15 and 25 advance by 15 in total. -/
theorem C1_cumulative_elapsed_witness :
    stampsMonotone 10 twoIterations ∧
    (proceedArgs (runLoops (AppFramework_Init State.initial 10).1 twoIterations).2).sum = 25 - 10 :=
  ⟨by simp [stampsMonotone, U32],
    (C1_cumulative_elapsed State.initial 10 _).2.2.2 (by simp [stampsMonotone, U32])⟩

/-- C2: the initial delay `r` that `AppFramework_Schedule` and
`AppFramework_ScheduleReload` hand to the scheduler satisfies
`(lastTick + c) + r = now + D` modulo `2^32`, `c` being the consumed-time marker; when
`lastTick <= now`, `c <= now - lastTick` and `now + D` does not overflow, `r >= D` and
the due time `lastTick + c + r` is exactly `now + D`. -/
theorem C2_absolute_delay (s : State) (now D cb arg : Nat) (sched : Nat → Nat → Nat → Nat → Nat) :
    scheduledDelays (AppFramework_Schedule s now sched D cb arg).2
      = [add32 (GetDurationToTimelineBeginning s now) D] ∧
    (∀ reload, scheduledDelays (AppFramework_ScheduleReload s now sched D reload cb arg).2
      = [add32 (GetDurationToTimelineBeginning s now) D]) ∧
    (s.lastTick + s.proceedingTime + add32 (GetDurationToTimelineBeginning s now) D) % U32
      = (now + D) % U32 ∧
    (s.lastTick ≤ now → s.proceedingTime ≤ now - s.lastTick → now + D < U32 →
      D ≤ add32 (GetDurationToTimelineBeginning s now) D ∧
      s.lastTick + s.proceedingTime + add32 (GetDurationToTimelineBeginning s now) D
        = now + D) := by
  refine ⟨rfl, fun _ => rfl, ?_, ?_⟩
  · unfold add32 GetDurationToTimelineBeginning ActionScheduler_GetProceedingTime sub32 U32
    omega
  · unfold add32 GetDurationToTimelineBeginning ActionScheduler_GetProceedingTime sub32 U32
    intro h1 h2 h3
    omega

/-- C2 at the specification's scenario: `lastTick = 0`, `now = 5`, consumed `5`,
`D = 10` gives an initial delay of 10 and a due time of 15. -/
theorem C2_absolute_delay_witness :
    (0 ≤ 5 ∧ 5 ≤ 5 - 0 ∧ 5 + 10 < U32) ∧
    scheduledDelays (AppFramework_Schedule midAdvance 5 (fun _ _ _ _ => 1) 10 7 9).2 = [10] ∧
    (10 ≤ add32 (GetDurationToTimelineBeginning midAdvance 5) 10 ∧
      0 + 5 + add32 (GetDurationToTimelineBeginning midAdvance 5) 10 = 5 + 10) :=
  ⟨by decide, by decide,
    (C2_absolute_delay midAdvance 5 10 7 9 (fun _ _ _ _ => 1)).2.2.2
      (by decide) (by decide) (by decide)⟩

/-- C3: `AppFramework_Schedule(d, cb, arg)` makes exactly one call
`ActionScheduler_ScheduleReload(((now - lastTick) - consumed) + d, d, cb, arg)` in
32-bit arithmetic and returns its handle; `AppFramework_ScheduleReload` does the same
with reload period `reload`, the initial delay being independent of it; hence
`AppFramework_Schedule(d, cb, arg)` equals `AppFramework_ScheduleReload(d, d, cb, arg)`. -/
theorem C3_schedule_passthrough (s : State) (now d reload cb arg : Nat)
    (sched : Nat → Nat → Nat → Nat → Nat) :
    AppFramework_Schedule s now sched d cb arg
      = (sched (add32 (sub32 (sub32 now s.lastTick) s.proceedingTime) d) d cb arg,
          [Event.GetTimestampHook now, Event.GetProceedingTime s.proceedingTime,
            Event.ScheduleReload (add32 (sub32 (sub32 now s.lastTick) s.proceedingTime) d)
              d cb arg]) ∧
    AppFramework_ScheduleReload s now sched d reload cb arg
      = (sched (add32 (sub32 (sub32 now s.lastTick) s.proceedingTime) d) reload cb arg,
          [Event.GetTimestampHook now, Event.GetProceedingTime s.proceedingTime,
            Event.ScheduleReload (add32 (sub32 (sub32 now s.lastTick) s.proceedingTime) d)
              reload cb arg]) ∧
    AppFramework_Schedule s now sched d cb arg
      = AppFramework_ScheduleReload s now sched d d cb arg ∧
    ((add32 (sub32 (sub32 now s.lastTick) s.proceedingTime) d : Nat) : Int)
      = (((now : Int) - (s.lastTick : Int)) - (s.proceedingTime : Int) + (d : Int))
          % 4294967296 := by
  refine ⟨rfl, rfl, rfl, ?_⟩
  unfold add32 sub32 U32
  omega

/-- C4: in every iteration `AppFramework_SuspendHook` is called at most once; when it
is called its argument is `max(0, nextEventDelay - MIN_WAKEUP_SAFEZONE_MS)` for the
delay returned at the loop's query, and is strictly positive; when that delay is at
most the safety margin none of the three suspend hooks is called. -/
theorem C4_suspend_duration (s : State) (env : LoopEnv) :
    (∀ t, Event.SuspendHook t ∈ (AppFramework_Loop s env).2 →
      (t : Int) = max 0 ((env.nextEventDelay : Int) - (MIN_WAKEUP_SAFEZONE_MS : Int)) ∧
      0 < t) ∧
    (suspendArgs (AppFramework_Loop s env).2 = [] ∨
      suspendArgs (AppFramework_Loop s env).2
        = [env.nextEventDelay - MIN_WAKEUP_SAFEZONE_MS]) ∧
    (env.nextEventDelay ≤ MIN_WAKEUP_SAFEZONE_MS →
      ∀ e ∈ (AppFramework_Loop s env).2, e.isSuspendHookCall = false) := by
  rcases Loop_cases s env with ⟨_, h⟩ | ⟨_, hd, h⟩ | ⟨_, hd, h⟩ | ⟨_, hd, h⟩
  · rw [h]
    refine ⟨?_, ?_, ?_⟩
    · intro t ht
      exact absurd ht (advanceEvents_no_suspend s env t)
    · left; exact suspendArgs_advanceEvents s env
    · intro _ e he
      exact advanceEvents_no_hook s env e he
  · rw [h]
    refine ⟨?_, ?_, ?_⟩
    · intro t ht
      simp [advanceEvents_no_suspend] at ht
    · left
      simp [suspendArgs_append, suspendArgs_advanceEvents, suspendArgs_callbackEvents, suspendArgs]
    · intro _ e he
      simp only [List.mem_append, List.mem_singleton] at he
      rcases he with he | he
      · exact advanceEvents_no_hook s env e he
      · subst he; rfl
  · rw [h]
    refine ⟨?_, ?_, ?_⟩
    · intro t ht
      simp [advanceEvents_no_suspend] at ht
    · left
      simp [suspendArgs_append, suspendArgs_advanceEvents, suspendArgs_callbackEvents, suspendArgs]
    · intro hle; omega
  · rw [h]
    refine ⟨?_, ?_, ?_⟩
    · intro t ht
      simp [advanceEvents_no_suspend] at ht
      subst ht
      omega
    · right
      simp [suspendArgs_append, suspendArgs_advanceEvents, suspendArgs_callbackEvents, suspendArgs]
    · intro hle; omega

/-- C4 at a concrete iteration: with the next action 40 ms away the suspend hook is
called with 40. -/
theorem C4_suspend_duration_witness :
    Event.SuspendHook 40 ∈ (AppFramework_Loop idleState quietEnv).2 ∧
    ((40 : Nat) : Int) = max 0 ((quietEnv.nextEventDelay : Int) - (MIN_WAKEUP_SAFEZONE_MS : Int)) ∧
    0 < 40 :=
  ⟨by decide, (C4_suspend_duration idleState quietEnv).1 40 (by decide)⟩

/-- C5: when the next-event delay re-read inside the critical section is strictly
smaller than the chosen duration `T = nextEventDelay - MIN_WAKEUP_SAFEZONE_MS`,
`Suspend` calls the pre-suspend hook, enters the critical section, re-reads the delay,
exits the critical section with the token it got and marks the iteration
not-suspended; `AppFramework_Loop` returns with `suspendedLastRound = false` and
without any call of `AppFramework_SuspendHook` or `AppFramework_PostSuspendHook`.
When the gate is passed, the calls of the iteration are, in order: the timestamp read,
the advance, the calls caused by its callbacks, the critical section that clears the
marker, the delay query and the four calls of the aborted `Suspend`. -/
theorem C5_suspend_abort (s : State) (env : LoopEnv)
    (hrace : env.recheckDelay < env.nextEventDelay - MIN_WAKEUP_SAFEZONE_MS) :
    (∀ g : State, Suspend g env.nextEventDelay env.suspendLock env.recheckDelay
      = ({ g with suspendedLastRound := false },
          [Event.PreSuspendHook, Event.Enter_Critical env.suspendLock,
            Event.GetNextEventDelay env.recheckDelay, Event.Exit_Critical env.suspendLock])) ∧
    suspendArgs (AppFramework_Loop s env).2 = [] ∧
    Event.PostSuspendHook ∉ (AppFramework_Loop s env).2 ∧
    (AppFramework_Loop s env).1.suspendedLastRound = false ∧
    ((stateAtGate s env).suspendEnabled = true → (stateAtGate s env).powerLockRecursive = 0 →
      AppFramework_Loop s env
        = ({ stateAtGate s env with suspendedLastRound := false },
            [Event.GetTimestampHook env.nowtick,
              Event.Proceed (sub32 env.nowtick s.lastTick)] ++
            callbackEvents s env ++
            [Event.Enter_Critical env.lock, Event.ClearProceedingTime,
              Event.Exit_Critical env.lock,
              Event.GetNextEventDelay env.nextEventDelay, Event.PreSuspendHook,
              Event.Enter_Critical env.suspendLock, Event.GetNextEventDelay env.recheckDelay,
              Event.Exit_Critical env.suspendLock])) := by
  have habort := fun g : State =>
    Suspend_abort g env.nextEventDelay env.suspendLock env.recheckDelay hrace
  have hflag := stateAtGate_suspendedLastRound s env
  refine ⟨habort, ?_, ?_, ?_, ?_⟩
  · rcases Loop_cases s env with ⟨_, h⟩ | ⟨_, hd, h⟩ | ⟨_, hd, h⟩ | ⟨_, hd, h⟩
    · rw [h]; exact suspendArgs_advanceEvents s env
    · rw [h]; simp [suspendArgs_append, suspendArgs_advanceEvents, suspendArgs_callbackEvents, suspendArgs]
    · rw [h]; simp [suspendArgs_append, suspendArgs_advanceEvents, suspendArgs_callbackEvents, suspendArgs]
    · omega
  · rcases Loop_cases s env with ⟨_, h⟩ | ⟨_, hd, h⟩ | ⟨_, hd, h⟩ | ⟨_, hd, h⟩
    · rw [h]; exact advanceEvents_no_post s env
    · rw [h]; simp [advanceEvents_no_post]
    · rw [h]; simp [advanceEvents_no_post]
    · omega
  · rcases Loop_cases s env with ⟨_, h⟩ | ⟨_, hd, h⟩ | ⟨_, hd, h⟩ | ⟨_, hd, h⟩
    · rw [h]; exact hflag
    · rw [h]
    · rw [h]
    · omega
  · intro hen hcnt
    rw [Loop_gate_open s env hen hcnt, habort, Loop_trace_shape]
    rfl

/-- C5 at a concrete iteration: a callback of the advance holds and releases a wake
lock, a 40 ms suspend is chosen, the re-check reads 3 ms, and the iteration ends after
`Exit_Critical` without sleeping; the trace lists every call of the iteration. -/
theorem C5_suspend_abort_witness :
    racedBusyEnv.recheckDelay < racedBusyEnv.nextEventDelay - MIN_WAKEUP_SAFEZONE_MS ∧
    suspendArgs (AppFramework_Loop idleState racedBusyEnv).2 = [] ∧
    Event.PostSuspendHook ∉ (AppFramework_Loop idleState racedBusyEnv).2 ∧
    (AppFramework_Loop idleState racedBusyEnv).1.suspendedLastRound = false ∧
    (AppFramework_Loop idleState racedBusyEnv).2
      = [Event.GetTimestampHook 130, Event.Proceed 30, Event.Enter_Critical 13,
          Event.Exit_Critical 13, Event.Enter_Critical 14, Event.Exit_Critical 14,
          Event.Enter_Critical 11, Event.ClearProceedingTime, Event.Exit_Critical 11,
          Event.GetNextEventDelay 40, Event.PreSuspendHook, Event.Enter_Critical 12,
          Event.GetNextEventDelay 3, Event.Exit_Critical 12] :=
  ⟨by decide, (C5_suspend_abort idleState racedBusyEnv (by decide)).2.1,
    (C5_suspend_abort idleState racedBusyEnv (by decide)).2.2.1,
    (C5_suspend_abort idleState racedBusyEnv (by decide)).2.2.2.1,
    by decide⟩

/-- C6: with suspension enabled when the gate of line 187 is reached,
`AppFramework_Loop` queries the next-event delay and enters `Suspend` if and only if
the wake-lock count is then zero; with a non-zero count it calls none of the three
suspend hooks, yet has advanced the scheduler by the elapsed time and set `lastTick`
to the timestamp read: its calls are then the timestamp read, the advance, the calls
caused by the callbacks of the advance and the critical section that clears the
marker, and nothing else. -/
theorem C6_wake_lock_gate (s : State) (env : LoopEnv)
    (hen : (stateAtGate s env).suspendEnabled = true) :
    ((∃ d, Event.GetNextEventDelay d ∈ (AppFramework_Loop s env).2) ↔
      (stateAtGate s env).powerLockRecursive = 0) ∧
    ((stateAtGate s env).powerLockRecursive = 0 →
      AppFramework_Loop s env
        = ((Suspend (stateAtGate s env) env.nextEventDelay env.suspendLock
              env.recheckDelay).1,
            [Event.GetTimestampHook env.nowtick,
              Event.Proceed (sub32 env.nowtick s.lastTick)] ++
            callbackEvents s env ++
            ([Event.Enter_Critical env.lock, Event.ClearProceedingTime,
              Event.Exit_Critical env.lock, Event.GetNextEventDelay env.nextEventDelay] ++
              (Suspend (stateAtGate s env) env.nextEventDelay env.suspendLock
                env.recheckDelay).2))) ∧
    ((stateAtGate s env).powerLockRecursive ≠ 0 →
      (∀ e ∈ (AppFramework_Loop s env).2, e.isSuspendHookCall = false) ∧
      (AppFramework_Loop s env).2
        = [Event.GetTimestampHook env.nowtick,
            Event.Proceed (sub32 env.nowtick s.lastTick)] ++
          callbackEvents s env ++
          [Event.Enter_Critical env.lock, Event.ClearProceedingTime,
            Event.Exit_Critical env.lock] ∧
      proceedArgs (AppFramework_Loop s env).2 = [sub32 env.nowtick s.lastTick] ∧
      (AppFramework_Loop s env).1.lastTick = env.nowtick) ∧
    (env.calls = [] → (stateAtGate s env).powerLockRecursive = s.powerLockRecursive) := by
  refine ⟨?_, ?_, ?_, fun h => (stateAtGate_no_calls s env h).1⟩
  · constructor
    · rintro ⟨d, hd⟩
      by_contra hcnt
      rw [Loop_gate_closed s env (Or.inr hcnt)] at hd
      exact advanceEvents_no_query s env d hd
    · intro hcnt
      refine ⟨env.nextEventDelay, ?_⟩
      rw [Loop_gate_open s env hen hcnt]
      simp
  · intro hcnt
    rw [Loop_gate_open s env hen hcnt, Loop_trace_shape]
    rfl
  · intro hcnt
    have hclosed := Loop_gate_closed s env (Or.inr hcnt)
    refine ⟨?_, ?_, proceedArgs_Loop s env, Loop_lastTick s env⟩
    · rw [hclosed]; exact advanceEvents_no_hook s env
    · rw [hclosed]; rfl

/-- C6 at a concrete iteration: a callback of the advance holds a wake lock, so no hook
is called, while the scheduler has been advanced by 30 ms and `lastTick` is 130; the
iteration makes seven calls, the critical section of the callback's hold included. -/
theorem C6_wake_lock_gate_witness :
    (stateAtGate idleState lockedEnv).suspendEnabled = true ∧
    (stateAtGate idleState lockedEnv).powerLockRecursive ≠ 0 ∧
    (∀ e ∈ (AppFramework_Loop idleState lockedEnv).2, e.isSuspendHookCall = false) ∧
    proceedArgs (AppFramework_Loop idleState lockedEnv).2 = [sub32 130 100] ∧
    (AppFramework_Loop idleState lockedEnv).1.lastTick = 130 ∧
    (AppFramework_Loop idleState lockedEnv).2
      = [Event.GetTimestampHook 130, Event.Proceed 30, Event.Enter_Critical 13,
          Event.Exit_Critical 13, Event.Enter_Critical 11, Event.ClearProceedingTime,
          Event.Exit_Critical 11] :=
  ⟨by decide, by decide,
    ((C6_wake_lock_gate idleState lockedEnv (by decide)).2.2.1 (by decide)).1,
    ((C6_wake_lock_gate idleState lockedEnv (by decide)).2.2.1 (by decide)).2.2.1,
    ((C6_wake_lock_gate idleState lockedEnv (by decide)).2.2.1 (by decide)).2.2.2,
    by decide⟩

/-- C7: after `AppFramework_SetSuspendEnable(false)`, over any number of
`AppFramework_Loop` iterations in which no callback re-enables suspension, whatever the
wake-lock activity, timestamps and next-event delays, `AppFramework_SuspendHook` is
never called, nor is the pre- or post-suspend hook. -/
theorem C7_disabled_never_suspends (s : State) (envs : List LoopEnv)
    (hoff : ∀ env ∈ envs, ApiCall.SetSuspendEnable true ∉ env.calls) :
    suspendArgs (runLoops (AppFramework_SetSuspendEnable s false) envs).2 = [] ∧
    (∀ e ∈ (runLoops (AppFramework_SetSuspendEnable s false) envs).2,
      e.isSuspendHookCall = false) := by
  have hall := runLoops_disabled envs (AppFramework_SetSuspendEnable s false) rfl hoff
  refine ⟨?_, hall⟩
  apply List.eq_nil_iff_forall_not_mem.mpr
  intro t ht
  have := hall _ ((mem_suspendArgs _ t).mp ht)
  simp [Event.isSuspendHookCall] at this

/-- C7 at a concrete run: two iterations after disabling suspension, the first of
which would otherwise sleep for 4 ms. -/
theorem C7_disabled_never_suspends_witness :
    (∀ env ∈ twoIterations, ApiCall.SetSuspendEnable true ∉ env.calls) ∧
    suspendArgs (runLoops (AppFramework_SetSuspendEnable idleState false) twoIterations).2
      = [] :=
  ⟨by decide, (C7_disabled_never_suspends idleState twoIterations (by decide)).1⟩

/-- C8, as stated, fails: one release from the initial count 0 leaves the 8-bit counter
at 255, where holds minus releases clamped at zero, and a saturating counter, give 0. -/
theorem C8_release_at_zero_wraps :
    (wakeLockSeq State.initial [(false, 0)]).powerLockRecursive = 255 ∧
    clampedCount [(false, 0)] = 0 ∧
    saturatingCount [(false, 0)] = 0 ∧
    ((wakeLockSeq State.initial [(false, 0)]).powerLockRecursive : Int)
      ≠ clampedCount [(false, 0)] := by
  decide

/-- C8, amended: after any sequence of `AppFramework_WakeLockRecursive` calls from
count 0 the count is holds minus releases modulo 256; whenever at every point of the
sequence the releases so far do not exceed the holds so far and the difference stays
below 256, it is exactly holds minus releases, which is then also the clamped value. -/
theorem C8_count_is_holds_minus_releases_mod_256 (ops : List (Bool × Nat)) :
    ((wakeLockSeq State.initial ops).powerLockRecursive : Int)
      = ((holdCount ops : Int) - (releaseCount ops : Int)) % 256 ∧
    ((∀ k, k ≤ ops.length →
        releaseCount (ops.take k) ≤ holdCount (ops.take k) ∧
        holdCount (ops.take k) - releaseCount (ops.take k) < 256) →
      (wakeLockSeq State.initial ops).powerLockRecursive = holdCount ops - releaseCount ops ∧
      ((wakeLockSeq State.initial ops).powerLockRecursive : Int) = clampedCount ops) := by
  constructor
  · have hmod := wakeLockSeq_count_mod ops State.initial
    have hlt := wakeLockSeq_count_lt ops State.initial (by decide)
    have h0 : State.initial.powerLockRecursive = 0 := rfl
    rw [h0] at hmod
    unfold U8 at hmod hlt
    omega
  · intro h
    have hex := wakeLockSeq_count_exact_bounded ops State.initial (by
      intro k hk
      have h0 : State.initial.powerLockRecursive = 0 := rfl
      have := h k hk
      rw [h0]; unfold U8; omega)
    have h0 : State.initial.powerLockRecursive = 0 := rfl
    rw [h0] at hex
    have hfull := h ops.length (Nat.le_refl _)
    rw [List.take_length] at hfull
    refine ⟨by omega, ?_⟩
    unfold clampedCount
    rw [hex]
    omega

/-- C8 amended, at a concrete sequence: two holds and a release leave the count at 1. -/
theorem C8_count_is_holds_minus_releases_mod_256_witness :
    (∀ k, k ≤ holdHoldRelease.length →
        releaseCount (holdHoldRelease.take k) ≤ holdCount (holdHoldRelease.take k) ∧
        holdCount (holdHoldRelease.take k) - releaseCount (holdHoldRelease.take k) < 256) ∧
    (wakeLockSeq State.initial holdHoldRelease).powerLockRecursive = 2 - 1 :=
  ⟨by decide,
    ((C8_count_is_holds_minus_releases_mod_256 holdHoldRelease).2 (by decide)).1⟩

/-- C9: `RELEASE_WAKELOCK` with `module_wake_lock` equal to zero makes no call of
`AppFramework_WakeLockRecursive` and leaves `module_wake_lock` and the statics,
the global count included, unchanged; with `module_wake_lock > 0` it calls
`AppFramework_WakeLockRecursive(false)` once and decrements both `module_wake_lock` and
the global 8-bit count by one. -/
theorem C9_release_macro_guard (m : Nat) (s : State) (lock : Nat) :
    (m = 0 → RELEASE_WAKELOCK m s lock = (m, s, [])) ∧
    (0 < m → m < 256 →
      RELEASE_WAKELOCK m s lock
        = (m - 1, (AppFramework_WakeLockRecursive s false lock).1,
            [Event.Enter_Critical lock, Event.Exit_Critical lock]) ∧
      ((RELEASE_WAKELOCK m s lock).2.1.powerLockRecursive + 1) % 256
        = s.powerLockRecursive % 256 ∧
      (0 < s.powerLockRecursive → s.powerLockRecursive < 256 →
        (RELEASE_WAKELOCK m s lock).2.1.powerLockRecursive = s.powerLockRecursive - 1)) := by
  constructor
  · intro hm
    subst hm
    simp [RELEASE_WAKELOCK]
  · intro hpos hlt
    have hm : toU8 (m - 1) = m - 1 := by unfold toU8 U8; omega
    have hrel : RELEASE_WAKELOCK m s lock
        = (m - 1, (AppFramework_WakeLockRecursive s false lock).1,
            [Event.Enter_Critical lock, Event.Exit_Critical lock]) := by
      simp [RELEASE_WAKELOCK, hpos, hm, AppFramework_WakeLockRecursive]
    refine ⟨hrel, ?_, ?_⟩
    · rw [hrel]
      simp only [WakeLock_release_count]
      unfold toU8 sub32 U32 U8; omega
    · intro h1 h2
      rw [hrel]
      simp only [WakeLock_release_count]
      unfold toU8 sub32 U32 U8; omega

/-- C9 at concrete inputs: a release with `module_wake_lock = 2` and global count 2
leaves both at 1. -/
theorem C9_release_macro_guard_witness :
    (0 < 2 ∧ 2 < 256) ∧
    (RELEASE_WAKELOCK 2 twoHeld 31).1 = 1 ∧
    (RELEASE_WAKELOCK 2 twoHeld 31).2.1.powerLockRecursive = 1 :=
  ⟨by decide,
    by rw [((C9_release_macro_guard 2 twoHeld 31).2 (by decide) (by decide)).1],
    ((C9_release_macro_guard 2 twoHeld 31).2 (by decide) (by decide)).2.2
      (by decide) (by decide)⟩

/-- C10: `AppFramework_Loop` first reads the timestamp `now`, passes
`(now - lastTick) mod 2^32` to `ActionScheduler_Proceed`, and only after that advance
and the calls its callbacks cause does it, inside one critical section, set `lastTick`
to `now` and clear the consumed-time marker: a callback of the advance that schedules
through `AppFramework_Schedule` still has its delay computed from the previous
`lastTick`.  At return `lastTick = now`, the marker is zero, and the distance to the
timeline head computed at timestamp `now` is zero. -/
theorem C10_resynchronise (s : State) (env : LoopEnv) :
    (∃ tail, (AppFramework_Loop s env).2
        = [Event.GetTimestampHook env.nowtick,
            Event.Proceed (sub32 env.nowtick s.lastTick)] ++
          callbackEvents s env ++
          ([Event.Enter_Critical env.lock, Event.ClearProceedingTime,
            Event.Exit_Critical env.lock] ++ tail) ∧
      (tail = [] ∨
        tail = Event.GetNextEventDelay env.nextEventDelay ::
          (Suspend (stateAtGate s env) env.nextEventDelay env.suspendLock
            env.recheckDelay).2)) ∧
    (∀ e ∈ callbackEvents s env, e.isApiEvent = true) ∧
    (∀ (pre post : List ApiCall) (now consumed handle d cb arg : Nat),
      env.calls = pre ++ ApiCall.Schedule now consumed handle d cb arg :: post →
      Event.ScheduleReload (add32 (sub32 (sub32 now s.lastTick) consumed) d) d cb arg
        ∈ (AppFramework_Loop s env).2) ∧
    proceedArgs (AppFramework_Loop s env).2 = [sub32 env.nowtick s.lastTick] ∧
    ((sub32 env.nowtick s.lastTick : Nat) : Int)
      = ((env.nowtick : Int) - (s.lastTick : Int)) % 4294967296 ∧
    (AppFramework_Loop s env).1.lastTick = env.nowtick ∧
    (AppFramework_Loop s env).1.proceedingTime = 0 ∧
    GetDurationToTimelineBeginning (AppFramework_Loop s env).1 env.nowtick = 0 := by
  refine ⟨?_, callbackEvents_api s env, ?_, proceedArgs_Loop s env, ?_, Loop_lastTick s env,
    Loop_proceedingTime s env, ?_⟩
  · by_cases hgate : (stateAtGate s env).suspendEnabled = true ∧
        (stateAtGate s env).powerLockRecursive = 0
    · refine ⟨Event.GetNextEventDelay env.nextEventDelay ::
        (Suspend (stateAtGate s env) env.nextEventDelay env.suspendLock
          env.recheckDelay).2, ?_, Or.inr rfl⟩
      rw [Loop_gate_open s env hgate.1 hgate.2, Loop_trace_shape]
    · refine ⟨[], ?_, Or.inl rfl⟩
      have hclosed : (stateAtGate s env).suspendEnabled = false ∨
          (stateAtGate s env).powerLockRecursive ≠ 0 := by
        by_cases hen : (stateAtGate s env).suspendEnabled = true
        · right; intro h0; exact hgate ⟨hen, h0⟩
        · left; simpa using hen
      rw [Loop_gate_closed s env hclosed, ← Loop_trace_shape, List.append_nil]
  · intro pre post now consumed handle d cb arg hc
    exact mem_Loop_of_mem_callbackEvents s env _
      (callbackEvents_schedule s env pre post now consumed handle d cb arg hc)
  · unfold sub32 U32; omega
  · unfold GetDurationToTimelineBeginning ActionScheduler_GetProceedingTime
    rw [Loop_lastTick, Loop_proceedingTime]
    unfold sub32 U32; omega

/-- C10 at a concrete iteration from `lastTick = 100`: at timestamp 125, with 20 ms of
the advance consumed, a callback schedules an action 10 ms ahead and the scheduler is
handed `(125 - 100 - 20) + 10 = 15`, computed from the previous `lastTick`; the whole
trace of the iteration is listed. -/
theorem C10_resynchronise_witness :
    schedulingEnv.calls = [] ++ ApiCall.Schedule 125 20 77 10 7 9 :: [] ∧
    Event.ScheduleReload (add32 (sub32 (sub32 125 idleState.lastTick) 20) 10) 10 7 9
      ∈ (AppFramework_Loop idleState schedulingEnv).2 ∧
    add32 (sub32 (sub32 125 idleState.lastTick) 20) 10 = 15 ∧
    (AppFramework_Loop idleState schedulingEnv).2
      = [Event.GetTimestampHook 130, Event.Proceed 30, Event.GetTimestampHook 125,
          Event.GetProceedingTime 20, Event.ScheduleReload 15 10 7 9,
          Event.Enter_Critical 11, Event.ClearProceedingTime, Event.Exit_Critical 11,
          Event.GetNextEventDelay 15, Event.PreSuspendHook, Event.Enter_Critical 12,
          Event.GetNextEventDelay 15, Event.SuspendHook 15, Event.Exit_Critical 12,
          Event.PostSuspendHook] ∧
    (AppFramework_Loop idleState schedulingEnv).1.lastTick = 130 :=
  ⟨rfl,
    (C10_resynchronise idleState schedulingEnv).2.2.1 [] [] 125 20 77 10 7 9 rfl,
    by decide, by decide, by decide⟩

/-- C11: for every 8-bit count `c`, `AppFramework_WakeLockRecursive(true)` followed by
`AppFramework_WakeLockRecursive(false)` restores the statics, the count included; a
hold adds one and a release subtracts one in 8-bit arithmetic (exactly `c + 1` below
255 and exactly `c - 1` above 0); neither call changes `lastTick`, the suspend-enabled
flag, the last-suspend flag or the scheduler's marker. -/
theorem C11_hold_release_identity (s : State) (l1 l2 : Nat)
    (hc : s.powerLockRecursive < 256) :
    (AppFramework_WakeLockRecursive (AppFramework_WakeLockRecursive s true l1).1 false l2).1
      = s ∧
    (AppFramework_WakeLockRecursive s true l1).1.powerLockRecursive
      = (s.powerLockRecursive + 1) % 256 ∧
    (s.powerLockRecursive < 255 →
      (AppFramework_WakeLockRecursive s true l1).1.powerLockRecursive
        = s.powerLockRecursive + 1) ∧
    ((AppFramework_WakeLockRecursive s false l2).1.powerLockRecursive + 1) % 256
      = s.powerLockRecursive ∧
    (0 < s.powerLockRecursive →
      (AppFramework_WakeLockRecursive s false l2).1.powerLockRecursive
        = s.powerLockRecursive - 1) ∧
    (∀ hold lock,
      (AppFramework_WakeLockRecursive s hold lock).1.lastTick = s.lastTick ∧
      (AppFramework_WakeLockRecursive s hold lock).1.suspendEnabled = s.suspendEnabled ∧
      (AppFramework_WakeLockRecursive s hold lock).1.suspendedLastRound
        = s.suspendedLastRound ∧
      (AppFramework_WakeLockRecursive s hold lock).1.proceedingTime = s.proceedingTime) := by
  have hhold := WakeLock_hold_count s l1
  have hrel := WakeLock_release_count s l2
  have hpair := WakeLock_release_count (AppFramework_WakeLockRecursive s true l1).1 l2
  unfold toU8 add32 U32 U8 at hhold
  unfold toU8 sub32 U32 U8 at hrel hpair
  refine ⟨?_, ?_, ?_, ?_, ?_, ?_⟩
  · have hcount :
        (AppFramework_WakeLockRecursive (AppFramework_WakeLockRecursive s true l1).1
          false l2).1.powerLockRecursive = s.powerLockRecursive := by
      rw [hpair, hhold]; omega
    have hframe :
        (AppFramework_WakeLockRecursive (AppFramework_WakeLockRecursive s true l1).1
          false l2).1
          = { s with powerLockRecursive :=
                (AppFramework_WakeLockRecursive (AppFramework_WakeLockRecursive s true l1).1
                  false l2).1.powerLockRecursive } := by
      simp [AppFramework_WakeLockRecursive]
    rw [hframe, hcount]
  · rw [hhold]; omega
  · intro h; rw [hhold]; omega
  · rw [hrel]; omega
  · intro h; rw [hrel]; omega
  · intro hold lock
    simp [AppFramework_WakeLockRecursive]

/-- C11 at the largest count: from 255 a hold wraps to 0 and the release brings the
count back to 255. -/
theorem C11_hold_release_identity_witness :
    fullyHeld.powerLockRecursive < 256 ∧
    (AppFramework_WakeLockRecursive (AppFramework_WakeLockRecursive fullyHeld true 1).1
      false 2).1 = fullyHeld :=
  ⟨by decide, (C11_hold_release_identity fullyHeld 1 2 (by decide)).1⟩

/-- C12: with the default hooks, whose timestamp hook returns 0 and whose three suspend
hooks have empty bodies, after `AppFramework_Init` every iteration of
`AppFramework_Loop` passes 0 to `ActionScheduler_Proceed` and leaves `lastTick = 0`,
for any number of iterations and whatever the scheduler answers. -/
theorem C12_default_hooks_pump (s : State) (envs : List LoopEnv)
    (hdef : ∀ env ∈ envs, env.nowtick = AppFramework_GetTimestampHook_default) :
    (AppFramework_Init s AppFramework_GetTimestampHook_default).1.lastTick = 0 ∧
    proceedArgs (runLoops (AppFramework_Init s AppFramework_GetTimestampHook_default).1 envs).2
      = List.replicate envs.length 0 ∧
    (∀ k, (runLoops (AppFramework_Init s AppFramework_GetTimestampHook_default).1
      (envs.take k)).1.lastTick = 0) ∧
    (∀ st t, AppFramework_PreSuspendHook_default st = st ∧
      AppFramework_SuspendHook_default st t = st ∧
      AppFramework_PostSuspendHook_default st = st) := by
  refine ⟨rfl, ?_, ?_, fun _ _ => ⟨rfl, rfl, rfl⟩⟩
  · exact (runLoops_default_stamp envs _ rfl hdef).1
  · intro k
    exact (runLoops_default_stamp (envs.take k) _ rfl
      (fun e he => hdef e (List.mem_of_mem_take he))).2

/-- C12 at a concrete run of three iterations with the default timestamp hook. -/
theorem C12_default_hooks_pump_witness :
    (∀ env ∈ defaultHookRun, env.nowtick = AppFramework_GetTimestampHook_default) ∧
    proceedArgs (runLoops (AppFramework_Init idleState AppFramework_GetTimestampHook_default).1
      defaultHookRun).2 = [0, 0, 0] :=
  ⟨by decide, (C12_default_hooks_pump idleState defaultHookRun (by decide)).2.1⟩

/-- C13: `AppFramework_Unschedule` and `AppFramework_UnscheduleAll` each make exactly one
call, `ActionScheduler_Unschedule` or `ActionScheduler_UnscheduleAll`, with the
argument they were given, return the boolean that call returns, and leave `lastTick`,
the wake-lock count, the suspend-enabled flag and the last-suspend flag unchanged. -/
theorem C13_unschedule_passthrough (s : State) (unschedule unscheduleAll : Nat → Bool)
    (actionId cb : Nat) :
    (AppFramework_Unschedule s unschedule actionId).1 = unschedule actionId ∧
    (AppFramework_Unschedule s unschedule actionId).2.2 = [Event.Unschedule actionId] ∧
    (AppFramework_Unschedule s unschedule actionId).2.1 = s ∧
    (AppFramework_UnscheduleAll s unscheduleAll cb).1 = unscheduleAll cb ∧
    (AppFramework_UnscheduleAll s unscheduleAll cb).2.2 = [Event.UnscheduleAll cb] ∧
    (AppFramework_UnscheduleAll s unscheduleAll cb).2.1 = s :=
  ⟨rfl, rfl, rfl, rfl, rfl, rfl⟩

/-- C14: when the duration `T = timeInMs - MIN_WAKEUP_SAFEZONE_MS` is positive and the
delay re-read inside the critical section is at least `T`, `Suspend` makes exactly the
calls pre-suspend hook, `Enter_Critical`, next-event delay query,
`AppFramework_SuspendHook(T)`, `Exit_Critical` with the token obtained, post-suspend
hook, in this order, and sets the last-suspend flag. -/
theorem C14_suspend_event_order (g : State) (d lock recheck : Nat)
    (hpos : 0 < d - MIN_WAKEUP_SAFEZONE_MS) (hre : d - MIN_WAKEUP_SAFEZONE_MS ≤ recheck) :
    (Suspend g d lock recheck).2
      = [Event.PreSuspendHook, Event.Enter_Critical lock, Event.GetNextEventDelay recheck,
          Event.SuspendHook (d - MIN_WAKEUP_SAFEZONE_MS), Event.Exit_Critical lock,
          Event.PostSuspendHook] ∧
    suspendArgs (Suspend g d lock recheck).2 = [d - MIN_WAKEUP_SAFEZONE_MS] ∧
    (Suspend g d lock recheck).1 = { g with suspendedLastRound := true } := by
  rw [Suspend_completed g d lock recheck hpos hre]
  exact ⟨rfl, rfl, rfl⟩

/-- C14 at concrete inputs: a 40 ms suspend whose re-check reads 40 ms. -/
theorem C14_suspend_event_order_witness :
    (0 < 40 - MIN_WAKEUP_SAFEZONE_MS ∧ 40 - MIN_WAKEUP_SAFEZONE_MS ≤ 40) ∧
    (Suspend idleState 40 12 40).2
      = [Event.PreSuspendHook, Event.Enter_Critical 12, Event.GetNextEventDelay 40,
          Event.SuspendHook (40 - MIN_WAKEUP_SAFEZONE_MS), Event.Exit_Critical 12,
          Event.PostSuspendHook] :=
  ⟨by decide, (C14_suspend_event_order idleState 40 12 40 (by decide) (by decide)).1⟩

/-- C15: in every execution of `AppFramework_Loop`, of `Suspend` and of
`AppFramework_WakeLockRecursive` the critical sections are balanced: each
`Enter_Critical` is followed by one `Exit_Critical` called with the token it returned,
and none is open at return.  The critical sections of an iteration are, in order, one
per `AppFramework_WakeLockRecursive` call made by the callbacks of the advance, the
one of lines 183 to 186 and, when `Suspend` gets a positive duration, one more, on the
abort path as on the completed path. -/
theorem C15_critical_sections_balanced (s : State) (env : LoopEnv) (hold : Bool)
    (lock : Nat) :
    criticalBalanced (AppFramework_Loop s env).2 [] = true ∧
    (criticalEvents (AppFramework_Loop s env).2
        = wakeLockPairs env.calls ++
            [Event.Enter_Critical env.lock, Event.Exit_Critical env.lock] ∨
      criticalEvents (AppFramework_Loop s env).2
        = wakeLockPairs env.calls ++
            [Event.Enter_Critical env.lock, Event.Exit_Critical env.lock,
              Event.Enter_Critical env.suspendLock, Event.Exit_Critical env.suspendLock]) ∧
    (∀ g d l r, criticalBalanced (Suspend g d l r).2 [] = true ∧
      (criticalEvents (Suspend g d l r).2 = [] ∨
        criticalEvents (Suspend g d l r).2
          = [Event.Enter_Critical l, Event.Exit_Critical l])) ∧
    criticalBalanced (AppFramework_WakeLockRecursive s hold lock).2 [] = true ∧
    criticalEvents (AppFramework_WakeLockRecursive s hold lock).2
      = [Event.Enter_Critical lock, Event.Exit_Critical lock] := by
  refine ⟨?_, ?_, ?_, ?_, ?_⟩
  · rcases Loop_cases s env with ⟨_, h⟩ | ⟨_, _, h⟩ | ⟨_, _, h⟩ | ⟨_, _, h⟩
    · rw [h, ← List.append_nil (advanceEvents s env), criticalBalanced_advanceEvents]
      rfl
    · rw [h, criticalBalanced_advanceEvents]
      rfl
    · rw [h, criticalBalanced_advanceEvents]
      simp [criticalBalanced]
    · rw [h, criticalBalanced_advanceEvents]
      simp [criticalBalanced]
  · rcases Loop_cases s env with ⟨_, h⟩ | ⟨_, _, h⟩ | ⟨_, _, h⟩ | ⟨_, _, h⟩ <;>
      rw [h] <;>
      simp [criticalEvents_append, criticalEvents_advanceEvents, criticalEvents_callbackEvents,
        criticalEvents]
  · intro g d l r
    rcases Suspend_trace g d l r with ⟨_, h⟩ | ⟨_, h⟩ | ⟨_, _, h⟩ <;>
      rw [h] <;> simp [criticalBalanced, criticalEvents]
  · simp [AppFramework_WakeLockRecursive, criticalBalanced]
  · simp [AppFramework_WakeLockRecursive, criticalEvents]

/-- C15 at concrete iterations: with a callback holding a wake lock the critical
sections are that of the hold and that of lines 183 to 186; with a callback holding
and releasing and an aborted suspend they are four, each closed with its own token. -/
theorem C15_critical_sections_balanced_witness :
    criticalBalanced (AppFramework_Loop idleState lockedEnv).2 [] = true ∧
    criticalEvents (AppFramework_Loop idleState lockedEnv).2
      = [Event.Enter_Critical 13, Event.Exit_Critical 13, Event.Enter_Critical 11,
          Event.Exit_Critical 11] ∧
    criticalBalanced (AppFramework_Loop idleState racedBusyEnv).2 [] = true ∧
    criticalEvents (AppFramework_Loop idleState racedBusyEnv).2
      = [Event.Enter_Critical 13, Event.Exit_Critical 13, Event.Enter_Critical 14,
          Event.Exit_Critical 14, Event.Enter_Critical 11, Event.Exit_Critical 11,
          Event.Enter_Critical 12, Event.Exit_Critical 12] :=
  ⟨(C15_critical_sections_balanced idleState lockedEnv true 0).1, by decide,
    (C15_critical_sections_balanced idleState racedBusyEnv true 0).1, by decide⟩

/-- C16: with suspension enabled and no wake lock held at the gate, and the same
next-event delay `d` read at the loop's query and at the re-check, the abort test is
false, and whenever `d > MIN_WAKEUP_SAFEZONE_MS` the suspend hook is called exactly
once, with `d - MIN_WAKEUP_SAFEZONE_MS`; a re-check delay equal to the chosen duration
does not abort either, the comparison being strict. -/
theorem C16_no_spurious_abort (s : State) (env : LoopEnv)
    (hen : (stateAtGate s env).suspendEnabled = true)
    (hcnt : (stateAtGate s env).powerLockRecursive = 0)
    (hsame : env.recheckDelay = env.nextEventDelay) :
    ShouldAbortSuspend env.recheckDelay (env.nextEventDelay - MIN_WAKEUP_SAFEZONE_MS)
      = false ∧
    (MIN_WAKEUP_SAFEZONE_MS < env.nextEventDelay →
      suspendArgs (AppFramework_Loop s env).2
        = [env.nextEventDelay - MIN_WAKEUP_SAFEZONE_MS] ∧
      (AppFramework_Loop s env).1.suspendedLastRound = true) ∧
    (∀ T, ShouldAbortSuspend T T = false) ∧
    (∀ (g : State) (l T : Nat), 0 < T →
      suspendArgs (Suspend g (T + MIN_WAKEUP_SAFEZONE_MS) l T).2 = [T]) := by
  refine ⟨?_, ?_, ?_, ?_⟩
  · unfold ShouldAbortSuspend
    simp only [decide_eq_false_iff_not]
    omega
  · intro hd
    have hdone := Suspend_completed (stateAtGate s env) env.nextEventDelay env.suspendLock
      env.recheckDelay (by omega) (by omega)
    rw [Loop_gate_open s env hen hcnt, hdone]
    refine ⟨?_, rfl⟩
    simp [suspendArgs_append, suspendArgs_advanceEvents, suspendArgs_callbackEvents, suspendArgs]
  · intro T
    simp [ShouldAbortSuspend]
  · intro g l T hT
    have hdone := Suspend_completed g (T + MIN_WAKEUP_SAFEZONE_MS) l T (by omega) (by omega)
    rw [hdone]
    simp [suspendArgs]

/-- C16 at a concrete iteration: 40 ms read twice gives one suspend hook call with 40. -/
theorem C16_no_spurious_abort_witness :
    ((stateAtGate idleState quietEnv).suspendEnabled = true ∧
      (stateAtGate idleState quietEnv).powerLockRecursive = 0 ∧
      quietEnv.recheckDelay = quietEnv.nextEventDelay ∧
      MIN_WAKEUP_SAFEZONE_MS < quietEnv.nextEventDelay) ∧
    suspendArgs (AppFramework_Loop idleState quietEnv).2
      = [quietEnv.nextEventDelay - MIN_WAKEUP_SAFEZONE_MS] ∧
    (AppFramework_Loop idleState quietEnv).1.suspendedLastRound = true :=
  ⟨by decide,
    (C16_no_spurious_abort idleState quietEnv (by decide) (by decide) (by decide)).2.1
      (by decide)⟩

/-- C17: after every iteration of `AppFramework_Loop`, from any state, the last-suspend
flag is true if and only if `AppFramework_SuspendHook` was called in that iteration;
it is false when suspension was disabled, when a wake lock was held, when the duration
was zero and when the suspend was aborted. -/
theorem C17_last_suspend_flag (s : State) (env : LoopEnv) :
    ((AppFramework_Loop s env).1.suspendedLastRound = true ↔
      ∃ t, Event.SuspendHook t ∈ (AppFramework_Loop s env).2) ∧
    ((stateAtGate s env).suspendEnabled = false →
      (AppFramework_Loop s env).1.suspendedLastRound = false) ∧
    ((stateAtGate s env).powerLockRecursive ≠ 0 →
      (AppFramework_Loop s env).1.suspendedLastRound = false) ∧
    (env.nextEventDelay ≤ MIN_WAKEUP_SAFEZONE_MS →
      (AppFramework_Loop s env).1.suspendedLastRound = false) ∧
    (env.recheckDelay < env.nextEventDelay - MIN_WAKEUP_SAFEZONE_MS →
      (AppFramework_Loop s env).1.suspendedLastRound = false) := by
  have hflag := stateAtGate_suspendedLastRound s env
  rcases Loop_cases s env with ⟨hg, h⟩ | ⟨hg, hd, h⟩ | ⟨hg, hd, h⟩ | ⟨hg, hd, h⟩
  · rw [h]
    refine ⟨?_, fun _ => hflag, fun _ => hflag, fun _ => hflag, fun _ => hflag⟩
    simp [hflag, advanceEvents_no_suspend]
  · rw [h]
    refine ⟨?_, fun _ => rfl, fun _ => rfl, fun _ => rfl, fun _ => rfl⟩
    simp [advanceEvents_no_suspend, advanceEvents_no_post, advanceEvents_no_pre]
  · rw [h]
    refine ⟨?_, fun _ => rfl, fun _ => rfl, fun _ => rfl, fun _ => rfl⟩
    simp [advanceEvents_no_suspend, advanceEvents_no_post, advanceEvents_no_pre]
  · rw [h]
    refine ⟨?_, ?_, ?_, ?_, ?_⟩
    · simp [advanceEvents_no_suspend, advanceEvents_no_post, advanceEvents_no_pre]
    · intro hoff; rw [hg.1] at hoff; exact absurd hoff (by decide)
    · intro hne; exact absurd hg.2 hne
    · intro hle; omega
    · intro hlt; omega

/-- C17 at two concrete iterations from a state whose flag is clear: the quiet one
sleeps and sets the flag, the raced one aborts and leaves it false. -/
theorem C17_last_suspend_flag_witness :
    (∃ t, Event.SuspendHook t ∈ (AppFramework_Loop idleState quietEnv).2) ∧
    (AppFramework_Loop idleState quietEnv).1.suspendedLastRound = true ∧
    racedEnv.recheckDelay < racedEnv.nextEventDelay - MIN_WAKEUP_SAFEZONE_MS ∧
    (AppFramework_Loop idleState racedEnv).1.suspendedLastRound = false :=
  ⟨⟨40, by decide⟩,
    (C17_last_suspend_flag idleState quietEnv).1.mpr ⟨40, by decide⟩,
    by decide,
    (C17_last_suspend_flag idleState racedEnv).2.2.2.2 (by decide)⟩

/-- C18: in an iteration whose suspend is aborted (the gate is passed and the delay
re-read is below the chosen duration) `AppFramework_PreSuspendHook` is called exactly
once and neither `AppFramework_SuspendHook` nor `AppFramework_PostSuspendHook` is
called; in every iteration the post-suspend hook is called if and only if the suspend
hook is. -/
theorem C18_abort_hooks_unpaired (s : State) (env : LoopEnv) :
    ((stateAtGate s env).suspendEnabled = true →
      (stateAtGate s env).powerLockRecursive = 0 →
      env.recheckDelay < env.nextEventDelay - MIN_WAKEUP_SAFEZONE_MS →
      (AppFramework_Loop s env).2.count Event.PreSuspendHook = 1 ∧
      suspendArgs (AppFramework_Loop s env).2 = [] ∧
      (AppFramework_Loop s env).2.count Event.PostSuspendHook = 0) ∧
    (Event.PostSuspendHook ∈ (AppFramework_Loop s env).2 ↔
      ∃ t, Event.SuspendHook t ∈ (AppFramework_Loop s env).2) ∧
    (AppFramework_Loop s env).2.count Event.PostSuspendHook
      = (suspendArgs (AppFramework_Loop s env).2).length := by
  rcases Loop_cases s env with ⟨hg, h⟩ | ⟨hg, hd, h⟩ | ⟨hg, hd, h⟩ | ⟨hg, hd, h⟩
  · rw [h]
    refine ⟨?_, ?_, ?_⟩
    · intro hen hcnt _
      rcases hg with hg | hg
      · rw [hen] at hg; exact absurd hg (by decide)
      · exact absurd hcnt hg
    · simp [advanceEvents_no_suspend, advanceEvents_no_post, advanceEvents_no_pre]
    · simp [List.count_append, advanceEvents_count_pre, advanceEvents_count_post,
        suspendArgs_append, suspendArgs_advanceEvents, suspendArgs_callbackEvents, suspendArgs]
  · rw [h]
    refine ⟨?_, ?_, ?_⟩
    · intro _ _ hlt; omega
    · simp [advanceEvents_no_suspend, advanceEvents_no_post, advanceEvents_no_pre]
    · simp [List.count_append, advanceEvents_count_pre, advanceEvents_count_post,
        suspendArgs_append, suspendArgs_advanceEvents, suspendArgs_callbackEvents, suspendArgs]
  · rw [h]
    refine ⟨?_, ?_, ?_⟩
    · intro _ _ _
      simp [List.count_append, advanceEvents_count_pre, advanceEvents_count_post,
        suspendArgs_append, suspendArgs_advanceEvents, suspendArgs_callbackEvents, suspendArgs]
    · simp [advanceEvents_no_suspend, advanceEvents_no_post, advanceEvents_no_pre]
    · simp [List.count_append, advanceEvents_count_pre, advanceEvents_count_post,
        suspendArgs_append, suspendArgs_advanceEvents, suspendArgs_callbackEvents, suspendArgs]
  · rw [h]
    refine ⟨?_, ?_, ?_⟩
    · intro _ _ hlt; omega
    · simp [advanceEvents_no_suspend, advanceEvents_no_post, advanceEvents_no_pre]
    · simp [List.count_append, advanceEvents_count_pre, advanceEvents_count_post,
        suspendArgs_append, suspendArgs_advanceEvents, suspendArgs_callbackEvents, suspendArgs]

/-- C18 at a concrete aborted iteration: one pre-suspend call, no suspend or
post-suspend call. -/
theorem C18_abort_hooks_unpaired_witness :
    ((stateAtGate idleState racedEnv).suspendEnabled = true ∧
      (stateAtGate idleState racedEnv).powerLockRecursive = 0 ∧
      racedEnv.recheckDelay < racedEnv.nextEventDelay - MIN_WAKEUP_SAFEZONE_MS) ∧
    (AppFramework_Loop idleState racedEnv).2.count Event.PreSuspendHook = 1 ∧
    suspendArgs (AppFramework_Loop idleState racedEnv).2 = [] ∧
    (AppFramework_Loop idleState racedEnv).2.count Event.PostSuspendHook = 0 :=
  ⟨by decide,
    (C18_abort_hooks_unpaired idleState racedEnv).1 (by decide) (by decide) (by decide)⟩

/-- C19: starting from `module_wake_lock = 0` and a global count of 0, after every
sequence of `ACQUIRE_WAKELOCK` and `RELEASE_WAKELOCK` in a single module the global
8-bit count equals `module_wake_lock`; with several modules it equals the sum of the
module counts modulo 256, so that while that sum is below 256 every module's count is
covered by the global count; a macro used in one module leaves the counts of the other
modules unchanged, and a release in a module whose own count is zero changes neither
the global count nor any module count. -/
theorem C19_module_counts_track_global (s : State) (hs : s.powerLockRecursive = 0) :
    (∀ ops, (moduleMacroSeq 0 s ops).2.powerLockRecursive = (moduleMacroSeq 0 s ops).1 ∧
      (moduleMacroSeq 0 s ops).1 < 256) ∧
    (∀ n uses,
      (modulesMacroSeq (List.replicate n 0) s uses).2.powerLockRecursive
        = (modulesMacroSeq (List.replicate n 0) s uses).1.sum % 256 ∧
      ((modulesMacroSeq (List.replicate n 0) s uses).1.sum < 256 →
        ∀ m ∈ (modulesMacroSeq (List.replicate n 0) s uses).1,
          m ≤ (modulesMacroSeq (List.replicate n 0) s uses).2.powerLockRecursive)) ∧
    (∀ (ms : List Nat) (st : State) (i j lock : Nat) (acq : Bool), j ≠ i →
      (modulesMacroSeq ms st [(i, acq, lock)]).1[j]? = ms[j]?) ∧
    (∀ (ms : List Nat) (st : State) (i lock : Nat), ms[i]? = some 0 →
      modulesMacroSeq ms st [(i, false, lock)] = (ms, st)) := by
  refine ⟨?_, ?_, ?_, ?_⟩
  · intro ops
    exact moduleMacroSeq_count ops 0 s (by decide) hs
  · intro n uses
    have hcount := modulesMacroSeq_count uses (List.replicate n 0) s (by omega)
      (by simp [hs])
    refine ⟨hcount, ?_⟩
    intro hsum m hm
    have := mem_le_sum _ m hm
    rw [hcount]
    omega
  · intro ms st i j lock acq hne
    simp only [modulesMacroSeq]
    cases hi : ms[i]? with
    | none => rfl
    | some m =>
      simp only []
      exact List.getElem?_set_ne (Ne.symm hne)
  · intro ms st i lock hi
    simp [modulesMacroSeq, hi, RELEASE_WAKELOCK]
    exact set_same ms i 0 hi

/-- C19 at concrete sequences: in one module an unmatched release, two acquires and a
release leave module and global count at 1; in two modules the counts end at 1 and 1
and the global count at 2. -/
theorem C19_module_counts_track_global_witness :
    State.initial.powerLockRecursive = 0 ∧
    ((moduleMacroSeq 0 State.initial oneModuleUses).2.powerLockRecursive
      = (moduleMacroSeq 0 State.initial oneModuleUses).1 ∧
      (moduleMacroSeq 0 State.initial oneModuleUses).1 < 256) ∧
    (moduleMacroSeq 0 State.initial oneModuleUses).1 = 1 ∧
    (modulesMacroSeq (List.replicate 2 0) State.initial twoModuleUses).1 = [1, 1] ∧
    (modulesMacroSeq (List.replicate 2 0) State.initial twoModuleUses).2.powerLockRecursive
      = 2 :=
  ⟨rfl, (C19_module_counts_track_global State.initial rfl).1 oneModuleUses,
    by decide, by decide, by decide⟩

end AppFramework
